import Mathlib

/-!
Verification of the Java-to-pseudocode conversion pipeline of the IA
repository.  The pipeline (normalizer, scope guard, tokenizer, parser,
code generator, orchestrator) is shallowly embedded from the TypeScript
sources under src/csconv/src/lib; machine behaviour such as regular
expressions and JavaScript string/number semantics is spelled out
explicitly.
-/

set_option maxHeartbeats 1000000

namespace IA

/-- Structured error used across conversion stages (errors.ts). -/
structure ConvertError where
  stage : String
  message : String
  line : Nat
  column : Nat
deriving Repr, DecidableEq

/-- Create a structured error for conversion stages (errors.ts, err).
The source defaults line and column to 1; call sites pass them explicitly. -/
def err (stage message : String) (line column : Nat) : ConvertError :=
  ⟨stage, message, line, column⟩

/-- Characters treated as whitespace by JavaScript trim and the regex
class backslash-s (WhiteSpace plus LineTerminator code points). -/
def isJsSpace (c : Char) : Bool :=
  c == ' ' || c == '\t' || c == '\n' || c == '\r' ||
  c == '\x0b' || c == '\x0c' ||
  c.val == 0xa0 || c.val == 0x1680 ||
  (0x2000 <= c.val && c.val <= 0x200a) ||
  c.val == 0x2028 || c.val == 0x2029 || c.val == 0x202f ||
  c.val == 0x205f || c.val == 0x3000 || c.val == 0xfeff

/-- JavaScript String.prototype.trim on a character list. -/
def jsTrimList (l : List Char) : List Char :=
  (((l.dropWhile isJsSpace).reverse).dropWhile isJsSpace).reverse

/-- The blank-input test of the orchestrator: the source is falsy or trims
to the empty string, i.e. every character is JavaScript whitespace. -/
def jsBlank (s : String) : Bool :=
  s.data.all isJsSpace

/- ## Normalizer (normalize.ts) -/

/-- Replace every CRLF or lone CR by a single LF
(the regex replace of carriage returns in normalize). -/
def unifyEol : List Char → List Char
  | [] => []
  | '\r' :: '\n' :: rest => '\n' :: unifyEol rest
  | '\r' :: rest => '\n' :: unifyEol rest
  | c :: rest => c :: unifyEol rest

/-- Replace every tab by two spaces (the tab replace of normalize). -/
def expandTabs : List Char → List Char
  | [] => []
  | '\t' :: rest => ' ' :: ' ' :: expandTabs rest
  | c :: rest => c :: expandTabs rest

/-- Scanner mode of the normalizer state machine: plain code, inside a
string literal with its quote character, inside a line comment, or inside
a block comment. -/
inductive NMode where
  | code : NMode
  | str : Char → NMode
  | lineC : NMode
  | blockC : NMode
deriving Repr, DecidableEq

/-- Character-for-character comment blanking of normalize: string
literals (with escape pairs) pass through verbatim, line comments are
blanked up to the newline, block comments are blanked with newlines
preserved, and everything else is copied unchanged. -/
def normChars : NMode → List Char → List Char
  | _, [] => []
  | NMode.str q, c :: cs =>
    if c == '\\' then
      match cs with
      | d :: ds => c :: d :: normChars (NMode.str q) ds
      | [] => [c]
    else if c == q then c :: normChars NMode.code cs
    else c :: normChars (NMode.str q) cs
  | NMode.lineC, c :: cs =>
    if c == '\n' then c :: normChars NMode.code cs
    else ' ' :: normChars NMode.lineC cs
  | NMode.blockC, c :: cs =>
    match cs with
    | d :: ds =>
      if c == '*' && d == '/' then ' ' :: ' ' :: normChars NMode.code ds
      else (if c == '\n' then '\n' else ' ') :: normChars NMode.blockC (d :: ds)
    | [] => [if c == '\n' then '\n' else ' ']
  | NMode.code, c :: cs =>
    if c == '"' || c == '\'' then c :: normChars (NMode.str c) cs
    else if c == '/' then
      match cs with
      | d :: ds =>
        if d == '/' then ' ' :: ' ' :: normChars NMode.lineC ds
        else if d == '*' then ' ' :: ' ' :: normChars NMode.blockC ds
        else c :: normChars NMode.code (d :: ds)
      | [] => [c]
    else c :: normChars NMode.code cs

/-- Normalize Java source: unify line endings, expand tabs, and blank out
comments while preserving string literals and positions (normalize.ts). -/
def normalize (s : String) : String :=
  String.mk (normChars NMode.code (expandTabs (unifyEol s.data)))

/-- Position classifier following the specification's description of the
normalizer regions: it scans the text exactly as the comment-blanking
pass does and tags every character with true when it lies inside a line
or block comment (delimiters included) and false otherwise (code and
string-literal characters).  This is the spec-side reference against
which normChars is compared. -/
def commentTags : NMode → List Char → List (Char × Bool)
  | _, [] => []
  | NMode.str q, c :: cs =>
    if c == '\\' then
      match cs with
      | d :: ds => (c, false) :: (d, false) :: commentTags (NMode.str q) ds
      | [] => [(c, false)]
    else if c == q then (c, false) :: commentTags NMode.code cs
    else (c, false) :: commentTags (NMode.str q) cs
  | NMode.lineC, c :: cs =>
    if c == '\n' then (c, false) :: commentTags NMode.code cs
    else (c, true) :: commentTags NMode.lineC cs
  | NMode.blockC, c :: cs =>
    match cs with
    | d :: ds =>
      if c == '*' && d == '/' then (c, true) :: (d, true) :: commentTags NMode.code ds
      else (c, true) :: commentTags NMode.blockC (d :: ds)
    | [] => [(c, true)]
  | NMode.code, c :: cs =>
    if c == '"' || c == '\'' then (c, false) :: commentTags (NMode.str c) cs
    else if c == '/' then
      match cs with
      | d :: ds =>
        if d == '/' then (c, true) :: (d, true) :: commentTags NMode.lineC ds
        else if d == '*' then (c, true) :: (d, true) :: commentTags NMode.blockC ds
        else (c, false) :: commentTags NMode.code (d :: ds)
      | [] => [(c, false)]
    else (c, false) :: commentTags NMode.code cs

/-- Render one tagged character: comment characters become spaces except
that newlines are preserved; all other characters are kept. -/
def renderTag (p : Char × Bool) : Char :=
  if p.2 && p.1 != '\n' then ' ' else p.1

/- ## Scope guard (scope-guard.ts) -/

/-- Word characters of the JavaScript regex word-boundary class. -/
def isWordChar (c : Char) : Bool :=
  c.isAlpha || c.isDigit || c == '_'

/-- Whether the first list is a prefix of the second (plain scan). -/
def startsList : List Char → List Char → Bool
  | [], _ => true
  | _ :: _, [] => false
  | a :: as_, b :: bs => a == b && startsList as_ bs

/-- A word boundary follows: end of input or a non-word character. -/
def boundaryAfter : List Char → Bool
  | [] => true
  | c :: _ => !isWordChar c

/-- Scan for a word-bounded occurrence of w; prev records whether the
previous character was a word character.  Embeds the regex
backslash-b w backslash-b. -/
def wordScan (w : List Char) : Bool → List Char → Bool
  | _, [] => false
  | prev, c :: cs =>
    (!prev && startsList w (c :: cs) && boundaryAfter (List.drop w.length (c :: cs))) ||
    wordScan w (isWordChar c) cs

/-- The normalized text contains a word-bounded occurrence of w. -/
def containsWord (w : String) (l : List Char) : Bool :=
  wordScan w.data false l

/-- After optional regex whitespace the next character is a less-than
sign (tail of the generics rule). -/
def wsThenLt : List Char → Bool
  | [] => false
  | c :: cs => if isJsSpace c then wsThenLt cs else c == '<'

/-- Embeds the generics rule: a word-bounded occurrence of the word
generic followed by optional whitespace and a less-than sign. -/
def genericScan : Bool → List Char → Bool
  | _, [] => false
  | prev, c :: cs =>
    (!prev && startsList "generic".data (c :: cs) &&
      wsThenLt (List.drop 7 (c :: cs))) ||
    genericScan (isWordChar c) cs

/-- Scan the rest of the current line (the regex dot does not match
newlines) for a second word-bounded occurrence of the word class. -/
def lineClassScan : Bool → List Char → Bool
  | _, [] => false
  | prev, c :: cs =>
    if c == '\n' then false
    else
      (!prev && startsList "class".data (c :: cs) &&
        boundaryAfter (List.drop 5 (c :: cs))) ||
      lineClassScan (isWordChar c) cs

/-- Embeds the multiple-classes rule: two word-bounded occurrences of the
word class with no newline between them. -/
def twoClassScan : Bool → List Char → Bool
  | _, [] => false
  | prev, c :: cs =>
    (!prev && startsList "class".data (c :: cs) &&
      boundaryAfter (List.drop 5 (c :: cs)) &&
      lineClassScan true (List.drop 5 (c :: cs))) ||
    twoClassScan (isWordChar c) cs

/-- One denylist rule of the scope guard: a reason string and the test
embedding that rule's regular expression. -/
structure ScopeRule where
  why : String
  test : List Char → Bool

/-- The ordered denylist of scopeGuard. -/
def scopeRules : List ScopeRule :=
  [ ⟨"Interfaces are out of scope.", containsWord "interface"⟩,
    ⟨"Interfaces are out of scope.", containsWord "implements"⟩,
    ⟨"Inheritance is out of scope.", containsWord "extends"⟩,
    ⟨"Exceptions are out of scope.", containsWord "throws"⟩,
    ⟨"Exceptions are out of scope.", containsWord "try"⟩,
    ⟨"Exceptions are out of scope.", containsWord "catch"⟩,
    ⟨"Switch is out of scope.", containsWord "switch"⟩,
    ⟨"Generics are out of scope.", genericScan false⟩,
    ⟨"Multiple classes are out of scope.", twoClassScan false⟩ ]

/-- Reject out-of-scope Java constructs before parsing: the first
matching rule yields a scope-stage error (scope-guard.ts). -/
def scopeGuard (s : String) : Option ConvertError :=
  (scopeRules.find? fun r => r.test s.data).map fun r => err "scope" r.why 1 1

/- ## Tokenizer (tokenize.ts) -/

/-- Token representation used by the parser. -/
structure Token where
  type : String
  value : String
  line : Nat
  col : Nat
deriving Repr, DecidableEq

/-- Reserved words of the tokenizer. -/
def keywordsList : List String :=
  ["if", "else", "while", "for", "do", "int", "double", "float", "boolean",
   "char", "String", "void", "public", "static", "class", "return",
   "true", "false", "new"]

/-- Two-character operators matched greedily by the tokenizer. -/
def twoOps : List String :=
  ["==", "!=", "<=", ">=", "&&", "||", "++", "--", "+=", "-=", "*=", "/="]

/-- Single-character token classification table of the tokenizer. -/
def singleType (c : Char) : Option String :=
  if c == '+' || c == '-' || c == '*' || c == '/' || c == '%' ||
     c == '<' || c == '>' || c == '=' || c == '!' then some "operator"
  else if c == '(' || c == ')' then some "paren"
  else if c == '{' || c == '}' then some "brace"
  else if c == '[' || c == ']' then some "bracket"
  else if c == '.' then some "dot"
  else if c == ';' then some "semicolon"
  else if c == ',' then some "comma"
  else none

/-- Identifier start: letter or underscore. -/
def isIdentStart (c : Char) : Bool := c.isAlpha || c == '_'

/-- Identifier continuation: letter, digit or underscore. -/
def isIdentChar (c : Char) : Bool := c.isAlpha || c.isDigit || c == '_'

/-- Scan a string literal after its opening quote: backslash pairs are
kept verbatim, the closing quote ends the scan, and a newline or end of
input yields the unterminated-string tokenization error at the current
scan position.  Returns the literal value, the updated column (one past
the closing quote) and the remaining input. -/
def scanString (q : Char) (line : Nat) : Nat → List Char → Except ConvertError (List Char × Nat × List Char)
  | col, [] => Except.error (err "tokenization" "Unterminated string literal" line col)
  | col, c :: cs =>
    if c == '\\' then
      match cs with
      | d :: ds =>
        match scanString q line (col + 2) ds with
        | Except.ok (v, c2, r) => Except.ok (c :: d :: v, c2, r)
        | Except.error e => Except.error e
      | [] => Except.error (err "tokenization" "Unterminated string literal" line (col + 2))
    else if c == q then Except.ok ([], col + 1, cs)
    else if c == '\n' then
      Except.error (err "tokenization" "Unterminated string literal" line col)
    else
      match scanString q line (col + 1) cs with
      | Except.ok (v, c2, r) => Except.ok (c :: v, c2, r)
      | Except.error e => Except.error e

/-- Main tokenizer loop with running line/column counters.  The fuel
argument only bounds the number of loop iterations; every iteration
consumes at least one character, so the initial fuel of length plus one
is never exhausted. -/
def tokLoop : Nat → List Char → Nat → Nat → Except ConvertError (List Token)
  | 0, _, _, _ => Except.error (err "tokenization" "Tokenizer fuel exhausted" 0 0)
  | _ + 1, [], line, col => Except.ok [⟨"eof", "", line, col⟩]
  | n + 1, c :: cs, line, col =>
    if c == ' ' || c == '\r' || c == '\x0c' then tokLoop n cs line (col + 1)
    else if c == '\n' then tokLoop n cs (line + 1) 1
    else if isIdentStart c then
      let value := List.takeWhile isIdentChar (c :: cs)
      let rest := List.dropWhile isIdentChar (c :: cs)
      let ty := if keywordsList.contains (String.mk value) then "keyword" else "identifier"
      match tokLoop n rest line (col + value.length) with
      | Except.ok ts => Except.ok (⟨ty, String.mk value, line, col⟩ :: ts)
      | Except.error e => Except.error e
    else if c.isDigit then
      let d1 := List.takeWhile Char.isDigit (c :: cs)
      let r1 := List.dropWhile Char.isDigit (c :: cs)
      let vr : List Char × List Char :=
        match r1 with
        | '.' :: r2 => (d1 ++ '.' :: List.takeWhile Char.isDigit r2, List.dropWhile Char.isDigit r2)
        | _ => (d1, r1)
      match tokLoop n vr.2 line (col + vr.1.length) with
      | Except.ok ts => Except.ok (⟨"number", String.mk vr.1, line, col⟩ :: ts)
      | Except.error e => Except.error e
    else if c == '"' || c == '\'' then
      match scanString c line (col + 1) cs with
      | Except.error e => Except.error e
      | Except.ok (v, col2, rest) =>
        match tokLoop n rest line col2 with
        | Except.ok ts => Except.ok (⟨"string", String.mk v, line, col2⟩ :: ts)
        | Except.error e => Except.error e
    else
      match cs with
      | d :: ds =>
        if twoOps.contains (String.mk [c, d]) then
          match tokLoop n ds line (col + 2) with
          | Except.ok ts => Except.ok (⟨"operator", String.mk [c, d], line, col⟩ :: ts)
          | Except.error e => Except.error e
        else
          match singleType c with
          | some ty =>
            match tokLoop n (d :: ds) line (col + 1) with
            | Except.ok ts => Except.ok (⟨ty, String.mk [c], line, col⟩ :: ts)
            | Except.error e => Except.error e
          | none =>
            Except.error (err "tokenization" ("Unsupported character '" ++ String.mk [c] ++ "'") line col)
      | [] =>
        match singleType c with
        | some ty =>
          match tokLoop n [] line (col + 1) with
          | Except.ok ts => Except.ok (⟨ty, String.mk [c], line, col⟩ :: ts)
          | Except.error e => Except.error e
        | none =>
          Except.error (err "tokenization" ("Unsupported character '" ++ String.mk [c] ++ "'") line col)

/-- Tokenize normalized source into a token stream terminated by an
end-of-stream token (tokenize.ts). -/
def tokenize (s : String) : Except ConvertError (List Token) :=
  tokLoop (s.data.length + 1) s.data 1 1

/- ## Abstract syntax tree (parser.ts) -/

/-- Typed AST node variants of the parser, one constructor per source
node type; the children arrays of the source become explicit fields. -/
inductive AstNode where
  | Program : List AstNode → AstNode
  | Block : List AstNode → AstNode
  | Declaration : String → String → List AstNode → AstNode
  | Assignment : AstNode → String → AstNode → AstNode
  | AssignmentExpr : AstNode → String → AstNode → AstNode
  | Update : AstNode → String → AstNode
  | CallStatement : AstNode → AstNode
  | ExpressionStatement : AstNode → AstNode
  | If : AstNode → AstNode → Option AstNode → AstNode
  | While : AstNode → AstNode → AstNode
  | DoWhile : AstNode → AstNode → AstNode
  | For : Option AstNode → Option AstNode → Option AstNode → AstNode → AstNode
  | Binary : String → AstNode → AstNode → AstNode
  | Unary : String → AstNode → AstNode
  | UnaryPostfixNode : String → AstNode → AstNode
  | Literal : String → AstNode
  | Identifier : String → AstNode
  | ArrayAccess : String → List AstNode → AstNode
  | Length : AstNode → AstNode
  | NewArray : String → List AstNode → AstNode
  | ArrayLiteral : List AstNode → AstNode
  | Call : String → List AstNode → AstNode
  | MethodCall : AstNode → String → List AstNode → AstNode
  | Property : AstNode → String → AstNode

/-- The source type tag of a node (the type field of the untyped source
objects), used by the generator's fallback line. -/
def AstNode.typeName : AstNode → String
  | .Program _ => "Program"
  | .Block _ => "Block"
  | .Declaration _ _ _ => "Declaration"
  | .Assignment _ _ _ => "Assignment"
  | .AssignmentExpr _ _ _ => "AssignmentExpr"
  | .Update _ _ => "Update"
  | .CallStatement _ => "CallStatement"
  | .ExpressionStatement _ => "ExpressionStatement"
  | .If _ _ _ => "If"
  | .While _ _ => "While"
  | .DoWhile _ _ => "DoWhile"
  | .For _ _ _ _ => "For"
  | .Binary _ _ _ => "Binary"
  | .Unary _ _ => "Unary"
  | .UnaryPostfixNode _ _ => "UnaryPostfix"
  | .Literal _ => "Literal"
  | .Identifier _ => "Identifier"
  | .ArrayAccess _ _ => "ArrayAccess"
  | .Length _ => "Length"
  | .NewArray _ _ => "NewArray"
  | .ArrayLiteral _ => "ArrayLiteral"
  | .Call _ _ => "Call"
  | .MethodCall _ _ _ => "MethodCall"
  | .Property _ _ => "Property"

/-- Children of a Block node (used where the source reads
mainBlock.children). -/
def blockChildren : AstNode → List AstNode
  | .Block cs => cs
  | _ => []

/-- Extract a base name for array access formatting (parser.ts,
emitBaseName). -/
def emitBaseName : AstNode → String
  | .Identifier n => n
  | .ArrayAccess n _ => n
  | .MethodCall obj _ _ => emitBaseName obj
  | .Property obj n => emitBaseName obj ++ "." ++ n
  | _ => "?"

/- ## Parser monad -/

/-- Parser computations: a cursor position into the fixed token stream,
with structured errors (the thrown err values of the source). -/
def PM (α : Type) : Type :=
  Nat → Except ConvertError (α × Nat)

/-- Return a value without moving the cursor. -/
def PM.pure (a : α) : PM α := fun pos => Except.ok (a, pos)

/-- Sequence two parser computations, threading the cursor. -/
def PM.bind (m : PM α) (k : α → PM β) : PM β := fun pos =>
  match m pos with
  | Except.error e => Except.error e
  | Except.ok (a, p) => k a p

instance : Monad PM where
  pure := PM.pure
  bind := PM.bind

/-- Abort with a structured parse error (a throw in the source). -/
def pthrow (e : ConvertError) : PM α := fun _ => Except.error e

/-- Read the current cursor position. -/
def getPos : PM Nat := fun pos => Except.ok (pos, pos)

/-- Advance the cursor by one (the pos increments of the source). -/
def advance : PM Unit := fun pos => Except.ok ((), pos + 1)

/-- Error produced when the source would dereference an undefined token
(reading past the end of the token array); the resulting TypeError is
caught by parse and surfaces as a parse-stage error. -/
def undefinedTokErr : ConvertError :=
  err "parse" "Cannot read properties of undefined (reading 'type')" 1 1

/-- Fuel-exhaustion marker of the embedding; the orchestration always
supplies more fuel than the recursion depth of the source can reach. -/
def fuelErr : ConvertError := err "parse" "Parser fuel exhausted" 0 0

/-- The current token, modelling the undefined dereference as an error. -/
def curTokD (tks : List Token) : PM Token := fun pos =>
  match tks.get? pos with
  | some t => Except.ok (t, pos)
  | none => Except.error undefinedTokErr

/-- Consume the current token when it matches the requested type and
optional value (Parser.match). -/
def pmatch (tks : List Token) (ty : String) (v : Option String) : PM (Option Token) := fun pos =>
  match tks.get? pos with
  | none => Except.ok (none, pos)
  | some tok =>
    if tok.type == ty && (match v with | none => true | some s => tok.value == s)
    then Except.ok (some tok, pos + 1)
    else Except.ok (none, pos)

/-- Consume a required token or raise a structured parse error at the
current token (Parser.expect); a missing current token reports line and
column zero as in the source. -/
def pexpect (tks : List Token) (ty : String) (v : Option String) (msg : Option String) : PM Token := fun pos =>
  let message := msg.getD ("Expected " ++ v.getD ty)
  match tks.get? pos with
  | some tok =>
    if tok.type == ty && (match v with | none => true | some s => tok.value == s)
    then Except.ok (tok, pos + 1)
    else Except.error (err "parse" message tok.line tok.col)
  | none => Except.error (err "parse" message 0 0)

/-- Assignment operators supported by the parser (ASSIGNMENT_OPS). -/
def assignmentOps : List String := ["=", "+=", "-=", "*=", "/=", "%="]

/-- Update operators supported by the parser (UPDATE_OPS). -/
def updateOps : List String := ["++", "--"]

/- ## Fixed-lookahead predicates (position-pure reads of the stream) -/

/-- The balanced-bracket lookahead loop shared by the assignment and
update predicates: starting at index i it tracks bracket depth (an
integer in the source) and the last index closing depth zero, and after
passing that index tests whether the following token is an operator in
opSet; it never moves the parser position. -/
def bracketScan (opSet : List String) (tks : List Token) : Nat → Nat → Int → Option Nat → Bool
  | 0, _, _, _ => false
  | n + 1, i, depth, lastClose =>
    match tks.get? i with
    | none => false
    | some tok =>
      let depth1 := if tok.type == "bracket" && tok.value == "[" then depth + 1 else depth
      let isClose := tok.type == "bracket" && tok.value == "]"
      let depth2 := if isClose then depth1 - 1 else depth1
      let lastClose2 := if isClose && depth2 == 0 then some i else lastClose
      match lastClose2 with
      | some lc =>
        if depth2 == 0 && decide (lc < i) then
          match tks.get? (lc + 1) with
          | some after => after.type == "operator" && opSet.contains after.value
          | none => false
        else bracketScan opSet tks n (i + 1) depth2 lastClose2
      | none => bracketScan opSet tks n (i + 1) depth2 lastClose2

/-- Parser.isAssignmentAhead: after the leading identifier, either an
assignment operator follows directly, or a balanced bracket chain
followed by an assignment operator. -/
def isAssignmentAhead (tks : List Token) (pos : Nat) : Bool :=
  match tks.get? (pos + 1) with
  | none => false
  | some next =>
    if next.type == "operator" then assignmentOps.contains next.value
    else if next.type == "bracket" && next.value == "[" then
      bracketScan assignmentOps tks (tks.length + 1) (pos + 1) 0 none
    else false

/-- Parser.isCallStatementAhead: the very next token is a dot. -/
def isCallStatementAhead (tks : List Token) (pos : Nat) : Bool :=
  match tks.get? (pos + 1) with
  | some next => next.type == "dot"
  | none => false

/-- Parser.isUpdateStatementAhead: after the leading identifier, either
an increment/decrement operator follows directly, or a balanced bracket
chain followed by one. -/
def isUpdateStatementAhead (tks : List Token) (pos : Nat) : Bool :=
  match tks.get? (pos + 1) with
  | none => false
  | some next =>
    if next.type == "operator" && (next.value == "++" || next.value == "--") then true
    else if next.type == "bracket" && next.value == "[" then
      bracketScan updateOps tks (tks.length + 1) (pos + 1) 0 none
    else false

/- ## Helper loops of the parser -/

/-- The wrapper-skipping loop at the top of parseProgram: advance while
the current token is the keyword public or static. -/
def skipMods (tks : List Token) : Nat → PM Unit
  | 0 => pthrow fuelErr
  | n + 1 => do
    let tok ← curTokD tks
    if tok.type == "keyword" && (tok.value == "public" || tok.value == "static") then do
      let _ ← advance
      skipMods tks n
    else pure ()

/-- The class-header skip of parseProgram: advance until an opening brace
is consumed, raising a parse error at end of stream. -/
def classBraceSkip (tks : List Token) : Nat → PM Unit
  | 0 => pthrow fuelErr
  | n + 1 => do
    match ← pmatch tks "brace" (some "\x7b") with
    | some _ => pure ()
    | none => do
      let cur ← curTokD tks
      if cur.type == "eof" then
        pthrow (err "parse" "Expected '\x7b' after class declaration" cur.line cur.col)
      else do
        let _ ← advance
        classBraceSkip tks n

/-- The main-signature skip of parseProgram: advance until a brace or end
of stream. -/
def mainSigSkip (tks : List Token) : Nat → PM Unit
  | 0 => pthrow fuelErr
  | n + 1 => do
    let cur ← curTokD tks
    if cur.type != "brace" && cur.type != "eof" then do
      let _ ← advance
      mainSigSkip tks n
    else pure ()

/-- The trailing-brace skip after the main block of parseProgram. -/
def trailingBraces (tks : List Token) : Nat → PM Unit
  | 0 => pthrow fuelErr
  | n + 1 => do
    let cur ← curTokD tks
    if cur.type == "brace" then do
      let _ ← advance
      trailingBraces tks n
    else pure ()

/-- The array-bracket pairs accepted around declaration names. -/
def declBrackets (tks : List Token) : Nat → PM Unit
  | 0 => pthrow fuelErr
  | n + 1 => do
    match ← pmatch tks "bracket" (some "[") with
    | some _ => do
      let _ ← pexpect tks "bracket" (some "]") (some "Expected ']' after '[' in array declaration")
      declBrackets tks n
    | none => pure ()

/-- Try each operator in order with Parser.match, returning the matched
operator value (the disjunctions of match calls in the source loops). -/
def tryOps (tks : List Token) : List String → PM (Option String)
  | [] => pure none
  | op :: rest => do
    match ← pmatch tks "operator" (some op) with
    | some tok => pure (some tok.value)
    | none => tryOps tks rest

/-- The shared loop shape of the binary-operator precedence levels:
while one of the level's operators matches, parse the next-lower level
and fold into a left-nested Binary node. -/
def binLoop (tks : List Token) (ops : List String) (next : PM AstNode) : Nat → AstNode → PM AstNode
  | 0, _ => pthrow fuelErr
  | n + 1, e => do
    match ← tryOps tks ops with
    | none => pure e
    | some op => do
      let r ← next
      binLoop tks ops next n (AstNode.Binary op e r)


/-- Hexadecimal digit for JSON escapes. -/
def hexDigit (n : Nat) : Char :=
  if n < 10 then Char.ofNat (48 + n) else Char.ofNat (87 + n)

/-- JSON.stringify escaping of one character. -/
def jsonEscape (c : Char) : List Char :=
  if c == '"' then ['\\', '"']
  else if c == '\\' then ['\\', '\\']
  else if c == '\n' then ['\\', 'n']
  else if c == '\r' then ['\\', 'r']
  else if c == '\t' then ['\\', 't']
  else if c == '\x08' then ['\\', 'b']
  else if c == '\x0c' then ['\\', 'f']
  else if c.val < 0x20 then
    ['\\', 'u', '0', '0', hexDigit ((c.val.toNat / 16) % 16), hexDigit (c.val.toNat % 16)]
  else [c]

/-- JSON.stringify of a string value, as applied by parsePrimary to
string-literal token values. -/
def jsonQuote (s : String) : String :=
  String.mk ('"' :: (s.data.flatMap jsonEscape ++ ['"']))

/- ## Parser proper -/

/-- The family of mutually recursive parser methods at a given fuel
level; fields mirror the methods of the Parser class. -/
structure ParserFns where
  parseProgram : PM AstNode
  parseStatements : PM (List AstNode)
  parseStatement : PM AstNode
  parseExpressionStatement : PM AstNode
  parseBlock : PM AstNode
  parseDeclaration : PM AstNode
  parseTargetFromIdentifier : PM AstNode
  parseTargetWithName : String → PM AstNode
  parseIndices : List AstNode → PM (List AstNode)
  parseAssignment : PM AstNode
  parseUpdateCore : Bool → PM AstNode
  parseIf : PM AstNode
  parseWhile : PM AstNode
  parseDoWhile : PM AstNode
  parseFor : PM AstNode
  parseExpression : PM AstNode
  parseAssignmentExpression : PM AstNode
  parseOr : PM AstNode
  parseAnd : PM AstNode
  parseEquality : PM AstNode
  parseRelational : PM AstNode
  parseAdditive : PM AstNode
  parseMultiplicative : PM AstNode
  parseUnary : PM AstNode
  parsePrimary : PM AstNode
  parsePostfixChain : AstNode → PM AstNode
  parseSepList : String → String → String → PM (List AstNode)
  sepListLoop : String → String → String → AstNode → PM (List AstNode)
  parseCallStatement : PM AstNode
  parseArrayCreation : PM AstNode
  parseDims : List (Option AstNode) → PM (List (Option AstNode))

/-- All parser methods exhausted: fuel has run out. -/
def throwAllFns : ParserFns where
  parseProgram := pthrow fuelErr
  parseStatements := pthrow fuelErr
  parseStatement := pthrow fuelErr
  parseExpressionStatement := pthrow fuelErr
  parseBlock := pthrow fuelErr
  parseDeclaration := pthrow fuelErr
  parseTargetFromIdentifier := pthrow fuelErr
  parseTargetWithName := fun _ => pthrow fuelErr
  parseIndices := fun _ => pthrow fuelErr
  parseAssignment := pthrow fuelErr
  parseUpdateCore := fun _ => pthrow fuelErr
  parseIf := pthrow fuelErr
  parseWhile := pthrow fuelErr
  parseDoWhile := pthrow fuelErr
  parseFor := pthrow fuelErr
  parseExpression := pthrow fuelErr
  parseAssignmentExpression := pthrow fuelErr
  parseOr := pthrow fuelErr
  parseAnd := pthrow fuelErr
  parseEquality := pthrow fuelErr
  parseRelational := pthrow fuelErr
  parseAdditive := pthrow fuelErr
  parseMultiplicative := pthrow fuelErr
  parseUnary := pthrow fuelErr
  parsePrimary := pthrow fuelErr
  parsePostfixChain := fun _ => pthrow fuelErr
  parseSepList := fun _ _ _ => pthrow fuelErr
  sepListLoop := fun _ _ _ _ => pthrow fuelErr
  parseCallStatement := pthrow fuelErr
  parseArrayCreation := pthrow fuelErr
  parseDims := fun _ => pthrow fuelErr

/-- Recursive-descent parser for the Java subset (the Parser class),
indexed by fuel: every method at fuel n+1 invokes its callees at fuel n,
so any fuel at least the dynamic call depth reproduces the source. -/
def parserFns (tks : List Token) : Nat → ParserFns
  | 0 => throwAllFns
  | n + 1 =>
    let p := parserFns tks n
    { parseProgram := do
        let _ ← skipMods tks n
        let c ← pmatch tks "keyword" (some "class")
        let _ ← (match c with
          | some _ => classBraceSkip tks n
          | none => pure ())
        let tok ← curTokD tks
        if tok.type == "keyword" &&
            (tok.value == "public" || tok.value == "static" || tok.value == "void") then do
          let _ ← mainSigSkip tks n
          let tok2 ← curTokD tks
          if tok2.type == "brace" && tok2.value == "\x7b" then do
            let blk ← p.parseBlock
            let _ ← trailingBraces tks n
            pure (AstNode.Program (blockChildren blk))
          else do
            let stmts ← p.parseStatements
            pure (AstNode.Program stmts)
        else do
          let stmts ← p.parseStatements
          pure (AstNode.Program stmts)
      parseStatements := do
        let cur ← curTokD tks
        if cur.type != "eof" && cur.type != "brace" then do
          let s ← p.parseStatement
          let rest ← p.parseStatements
          pure (s :: rest)
        else pure []
      parseStatement := do
        let tok ← curTokD tks
        if tok.type == "keyword" then
          match tok.value with
          | "if" => p.parseIf
          | "while" => p.parseWhile
          | "for" => p.parseFor
          | "do" => p.parseDoWhile
          | "int" => p.parseDeclaration
          | "double" => p.parseDeclaration
          | "float" => p.parseDeclaration
          | "boolean" => p.parseDeclaration
          | "char" => p.parseDeclaration
          | "String" => p.parseDeclaration
          | _ => pthrow (err "parse" ("Unsupported keyword '" ++ tok.value ++ "'") tok.line tok.col)
        else if tok.type == "brace" && tok.value == "\x7b" then p.parseBlock
        else if tok.type == "identifier" then do
          let pos ← getPos
          if isUpdateStatementAhead tks pos then p.parseUpdateCore true
          else if isCallStatementAhead tks pos then p.parseCallStatement
          else if isAssignmentAhead tks pos then p.parseAssignment
          else p.parseExpressionStatement
        else
          pthrow (err "parse"
            ("Unexpected token '" ++ (if tok.value == "" then tok.type else tok.value) ++ "'")
            tok.line tok.col)
      parseExpressionStatement := do
        let e ← p.parseExpression
        let _ ← pexpect tks "semicolon" (some ";") (some "Expected ';' after expression")
        pure (AstNode.ExpressionStatement e)
      parseBlock := do
        let _ ← pexpect tks "brace" (some "\x7b") (some "Expected '\x7b' to start block")
        let stmts ← p.parseStatements
        let _ ← pexpect tks "brace" (some "\x7d") (some "Expected '\x7d' to close block")
        pure (AstNode.Block stmts)
      parseDeclaration := do
        let typeTok ← curTokD tks
        let _ ← advance
        let _ ← declBrackets tks n
        let nameTok ← pexpect tks "identifier" none (some "Expected identifier in declaration")
        let _ ← declBrackets tks n
        let init ← (do
          match ← pmatch tks "operator" (some "=") with
          | some _ => do
            let e ← p.parseExpression
            pure [e]
          | none => pure ([] : List AstNode))
        let _ ← pexpect tks "semicolon" (some ";") (some "Expected ';' after declaration")
        pure (AstNode.Declaration nameTok.value typeTok.value init)
      parseTargetFromIdentifier := do
        let nameTok ← pexpect tks "identifier" none (some "Expected identifier")
        p.parseTargetWithName nameTok.value
      parseTargetWithName := fun name => do
        match ← pmatch tks "bracket" (some "[") with
        | some _ => do
          let idx ← p.parseExpression
          let _ ← pexpect tks "bracket" (some "]") (some "Expected ']' in array access")
          let indices ← p.parseIndices [idx]
          pure (AstNode.ArrayAccess name indices)
        | none => pure (AstNode.Identifier name)
      parseIndices := fun acc => do
        match ← pmatch tks "bracket" (some "[") with
        | some _ => do
          let idx ← p.parseExpression
          let _ ← pexpect tks "bracket" (some "]") (some "Expected ']' in array access")
          p.parseIndices (acc ++ [idx])
        | none => pure acc
      parseAssignment := do
        let target ← p.parseTargetFromIdentifier
        let opTok ← pexpect tks "operator" none (some "Expected assignment operator")
        if assignmentOps.contains opTok.value then do
          let e ← p.parseAssignmentExpression
          let _ ← pexpect tks "semicolon" (some ";") (some "Expected ';' after assignment")
          pure (AstNode.Assignment target opTok.value e)
        else
          pthrow (err "parse" ("Unsupported assignment operator '" ++ opTok.value ++ "'")
            opTok.line opTok.col)
      parseUpdateCore := fun expectSemicolon => do
        let target ← p.parseTargetFromIdentifier
        let opTok ← pexpect tks "operator" none (some "Expected ++ or --")
        if updateOps.contains opTok.value then do
          let _ ← (if expectSemicolon then do
              let _ ← pexpect tks "semicolon" (some ";") (some "Expected ';' after update")
              pure ()
            else pure ())
          pure (AstNode.Update target opTok.value)
        else
          pthrow (err "parse" ("Unsupported update operator '" ++ opTok.value ++ "'")
            opTok.line opTok.col)
      parseIf := do
        let _ ← pexpect tks "keyword" (some "if") none
        let _ ← pexpect tks "paren" (some "(") (some "Expected '(' after if")
        let test ← p.parseExpression
        let _ ← pexpect tks "paren" (some ")") (some "Expected ')' after condition")
        let consequent ← p.parseStatement
        match ← pmatch tks "keyword" (some "else") with
        | some _ => do
          let alt ← p.parseStatement
          pure (AstNode.If test consequent (some alt))
        | none => pure (AstNode.If test consequent none)
      parseWhile := do
        let _ ← pexpect tks "keyword" (some "while") none
        let _ ← pexpect tks "paren" (some "(") (some "Expected '(' after while")
        let test ← p.parseExpression
        let _ ← pexpect tks "paren" (some ")") (some "Expected ')' after condition")
        let body ← p.parseStatement
        pure (AstNode.While test body)
      parseDoWhile := do
        let _ ← pexpect tks "keyword" (some "do") none
        let body ← p.parseStatement
        let _ ← pexpect tks "keyword" (some "while") (some "Expected 'while' after do-body")
        let _ ← pexpect tks "paren" (some "(") (some "Expected '(' after while")
        let test ← p.parseExpression
        let _ ← pexpect tks "paren" (some ")") (some "Expected ')' after condition")
        let _ ← pexpect tks "semicolon" (some ";") (some "Expected ';' after do-while")
        pure (AstNode.DoWhile body test)
      parseFor := do
        let _ ← pexpect tks "keyword" (some "for") none
        let _ ← pexpect tks "paren" (some "(") (some "Expected '(' after for")
        let init ← (do
          match ← pmatch tks "semicolon" (some ";") with
          | some _ => pure (none : Option AstNode)
          | none => do
            let cur ← curTokD tks
            if cur.type == "keyword" then do
              let d ← p.parseDeclaration
              pure (some d)
            else do
              let a ← p.parseAssignment
              pure (some a))
        let test ← (do
          match ← pmatch tks "semicolon" (some ";") with
          | some _ => pure (none : Option AstNode)
          | none => do
            let t ← p.parseExpression
            let _ ← pexpect tks "semicolon" (some ";") (some "Expected ';' after for-condition")
            pure (some t))
        let update ← (do
          match ← pmatch tks "paren" (some ")") with
          | some _ => pure (none : Option AstNode)
          | none => do
            let cur ← curTokD tks
            let u ← (do
              if cur.type == "identifier" then
                match tks.get? ((← getPos) + 1) with
                | some nx =>
                  if nx.type == "operator" && (nx.value == "++" || nx.value == "--") then
                    p.parseUpdateCore false
                  else p.parseExpression
                | none => p.parseExpression
              else p.parseExpression)
            let _ ← pexpect tks "paren" (some ")") (some "Expected ')' after for-update")
            pure (some u))
        let body ← p.parseStatement
        pure (AstNode.For init test update body)
      parseExpression := p.parseAssignmentExpression
      parseAssignmentExpression := do
        let left ← p.parseOr
        let cur ← curTokD tks
        if cur.type == "operator" && assignmentOps.contains cur.value then do
          let _ ← advance
          let right ← p.parseAssignmentExpression
          match left with
          | AstNode.Identifier _ => pure (AstNode.AssignmentExpr left cur.value right)
          | AstNode.ArrayAccess _ _ => pure (AstNode.AssignmentExpr left cur.value right)
          | _ => pthrow (err "parse" "Invalid assignment target" cur.line cur.col)
        else pure left
      parseOr := do
        let e ← p.parseAnd
        binLoop tks ["||"] p.parseAnd n e
      parseAnd := do
        let e ← p.parseEquality
        binLoop tks ["&&"] p.parseEquality n e
      parseEquality := do
        let e ← p.parseRelational
        binLoop tks ["==", "!="] p.parseRelational n e
      parseRelational := do
        let e ← p.parseAdditive
        binLoop tks ["<", ">", "<=", ">="] p.parseAdditive n e
      parseAdditive := do
        let e ← p.parseMultiplicative
        binLoop tks ["+", "-"] p.parseMultiplicative n e
      parseMultiplicative := do
        let e ← p.parseUnary
        binLoop tks ["*", "/", "%"] p.parseUnary n e
      parseUnary := do
        match ← tryOps tks ["!", "-"] with
        | some op => do
          let right ← p.parseUnary
          pure (AstNode.Unary op right)
        | none => p.parsePrimary
      parsePrimary := do
        let tok ← curTokD tks
        match ← pmatch tks "keyword" (some "new") with
        | some _ => p.parseArrayCreation
        | none => do
        match ← pmatch tks "number" none with
        | some _ => pure (AstNode.Literal tok.value)
        | none => do
        match ← pmatch tks "string" none with
        | some _ => pure (AstNode.Literal (jsonQuote tok.value))
        | none => do
        match ← pmatch tks "keyword" (some "true") with
        | some _ => pure (AstNode.Literal tok.value)
        | none => do
        match ← pmatch tks "keyword" (some "false") with
        | some _ => pure (AstNode.Literal tok.value)
        | none => do
        match ← pmatch tks "identifier" none with
        | some _ => p.parsePostfixChain (AstNode.Identifier tok.value)
        | none => do
        match ← pmatch tks "paren" (some "(") with
        | some _ => do
          let e ← p.parseExpression
          let _ ← pexpect tks "paren" (some ")") (some "Expected ')' after expression")
          pure e
        | none =>
          pthrow (err "parse"
            ("Unexpected token '" ++ (if tok.value == "" then tok.type else tok.value) ++ "'")
            tok.line tok.col)
      parsePostfixChain := fun node => do
        match ← pmatch tks "paren" (some "(") with
        | some _ => do
          let args ← p.parseSepList "paren" ")" "Expected ')' after arguments"
          match node with
          | AstNode.Identifier name => p.parsePostfixChain (AstNode.Call name args)
          | _ => do
            let cur ← curTokD tks
            pthrow (err "parse" "Unsupported call target" cur.line cur.col)
        | none => do
        match ← pmatch tks "dot" (some ".") with
        | some _ => do
          let propTok ← pexpect tks "identifier" none (some "Expected property name")
          match ← pmatch tks "paren" (some "(") with
          | some _ => do
            let args ← p.parseSepList "paren" ")" "Expected ')' after arguments"
            p.parsePostfixChain (AstNode.MethodCall node propTok.value args)
          | none =>
            if propTok.value == "length" then p.parsePostfixChain (AstNode.Length node)
            else p.parsePostfixChain (AstNode.Property node propTok.value)
        | none => do
        match ← pmatch tks "bracket" (some "[") with
        | some _ => do
          let idx ← p.parseExpression
          let _ ← pexpect tks "bracket" (some "]") (some "Expected ']' in array access")
          let indices ← p.parseIndices [idx]
          p.parsePostfixChain (AstNode.ArrayAccess (emitBaseName node) indices)
        | none => do
        match ← tryOps tks ["++", "--"] with
        | some op => pure (AstNode.UnaryPostfixNode op node)
        | none => pure node
      parseSepList := fun closeTy closeVal closeMsg => do
        match ← pmatch tks closeTy (some closeVal) with
        | some _ => pure []
        | none => do
          let first ← p.parseExpression
          p.sepListLoop closeTy closeVal closeMsg first
      sepListLoop := fun closeTy closeVal closeMsg first => do
        let rest ← (do
          let r ← (do
            match ← pmatch tks "comma" (some ",") with
            | some _ => do
              let e ← p.parseExpression
              p.sepListLoop closeTy closeVal closeMsg e
            | none => do
              let _ ← pexpect tks closeTy (some closeVal) (some closeMsg)
              pure [])
          pure r)
        pure (first :: rest)
      parseCallStatement := do
        let base ← pexpect tks "identifier" none (some "Expected identifier")
        let node ← p.parsePostfixChain (AstNode.Identifier base.value)
        let _ ← pexpect tks "semicolon" (some ";") (some "Expected ';' after call")
        pure (AstNode.CallStatement node)
      parseArrayCreation := do
        let typeTok ← pexpect tks "keyword" none (some "Expected type after new")
        let dims ← p.parseDims []
        if dims.length == 0 then
          pthrow (err "parse" "Expected '[' after array type" typeTok.line typeTok.col)
        else do
          let hasInit ← (do
            if (match dims.getLast? with | some none => true | _ => false) then
              match ← pmatch tks "brace" (some "\x7b") with
              | some _ => pure true
              | none => pure false
            else pure false)
          if hasInit then do
            let elements ← p.parseSepList "brace" "\x7d" "Expected '\x7d' after array literal"
            pure (AstNode.ArrayLiteral elements)
          else if dims.any Option.isNone then
            pthrow (err "parse" "Expected array initializer" typeTok.line typeTok.col)
          else
            pure (AstNode.NewArray typeTok.value (dims.filterMap id))
      parseDims := fun acc => do
        match ← pmatch tks "bracket" (some "[") with
        | none => pure acc
        | some _ => do
          match ← pmatch tks "bracket" (some "]") with
          | some _ => p.parseDims (acc ++ [none])
          | none => do
            let e ← p.parseExpression
            let _ ← pexpect tks "bracket" (some "]") (some "Expected ']' after array size")
            p.parseDims (acc ++ [some e]) }

/-- Fuel supplied to the parser: far above the dynamic call depth, which
is bounded by a small multiple of the token count. -/
def parseFuel (tokens : List Token) : Nat := tokens.length * 16 + 64

/-- Parse tokens into an AST, returning structured parse errors
(parser.ts, parse). -/
def parse (tokens : List Token) : Except ConvertError AstNode :=
  match (parserFns tokens (parseFuel tokens)).parseProgram 0 with
  | Except.ok (ast, _) => Except.ok ast
  | Except.error e => Except.error e

/- ## JavaScript number model (exact decimals) -/

/-- Decimal value of a digit run. -/
def digitsToNat (l : List Char) : Nat :=
  l.foldl (fun acc c => acc * 10 + (c.toNat - 48)) 0

/-- A JavaScript number produced from a decimal literal string, kept as
an exact scaled decimal: mantissa over ten to the exponent. -/
structure JsNum where
  mant : Int
  exp : Nat
deriving Repr, DecidableEq

/-- Number(string) on the strings the generator feeds it: after
trimming, an optional sign and decimal digits with an optional fraction;
the empty string is zero; anything else is NaN (none).  Exponent and hex
forms never arise from the tokenizer's literals. -/
def jsNumber (s : String) : Option JsNum :=
  let t := jsTrimList s.data
  match t with
  | [] => some ⟨0, 0⟩
  | _ =>
    let (sign, rest) : Int × List Char :=
      match t with
      | '-' :: r => (-1, r)
      | '+' :: r => (1, r)
      | r => (1, r)
    let d1 := rest.takeWhile Char.isDigit
    let r1 := rest.dropWhile Char.isDigit
    match r1 with
    | [] => if d1.isEmpty then none else some ⟨sign * digitsToNat d1, 0⟩
    | '.' :: r2 =>
      let d2 := r2.takeWhile Char.isDigit
      let r3 := r2.dropWhile Char.isDigit
      if r3.isEmpty && !(d1.isEmpty && d2.isEmpty) then
        some ⟨sign * digitsToNat (d1 ++ d2), d2.length⟩
      else none
    | _ => none

/-- Subtraction of scaled decimals (exact). -/
def jsSub (a b : JsNum) : JsNum :=
  let e := max a.exp b.exp
  ⟨a.mant * (10 : Int) ^ (e - a.exp) - b.mant * (10 : Int) ^ (e - b.exp), e⟩

/-- Addition of scaled decimals (exact). -/
def jsAdd (a b : JsNum) : JsNum :=
  let e := max a.exp b.exp
  ⟨a.mant * (10 : Int) ^ (e - a.exp) + b.mant * (10 : Int) ^ (e - b.exp), e⟩

/-- Strictly positive test. -/
def jsPos (a : JsNum) : Bool := 0 < a.mant

/-- Drop trailing zero decimals (canonical form for printing). -/
def jsCanon : Nat → Int → Nat → JsNum
  | 0, m, e => ⟨m, e⟩
  | _ + 1, m, 0 => ⟨m, 0⟩
  | f + 1, m, e + 1 => if m % 10 == 0 then jsCanon f (m / 10) e else ⟨m, e + 1⟩

/-- Template-literal rendering of a JavaScript number: integers print
without a decimal point, finite decimals with one. -/
def jsNumToString (a : JsNum) : String :=
  let c := jsCanon a.exp a.mant a.exp
  if c.exp == 0 then toString c.mant
  else
    let p : Nat := 10 ^ c.exp
    let absM := c.mant.natAbs
    let ip := absM / p
    let fr := absM % p
    let frS := Nat.repr fr
    let pad := String.mk (List.replicate (c.exp - frS.length) '0')
    (if c.mant < 0 then "-" else "") ++ Nat.repr ip ++ "." ++ pad ++ frS

/- ## Code generator (generator.ts) -/

/-- Keyword spellings of a pseudocode style; optional fields are absent
in styles that do not use them. -/
structure StyleKeywords where
  kwIf : String
  kwThen : String
  kwElse : String
  kwElseIf : String
  kwEndIf : String
  kwInput : String
  kwOutput : String
  kwWhile : Option String
  kwDo : Option String
  kwEndWhile : Option String
  kwRepeat : Option String
  kwUntil : String
  kwFor : Option String
  kwEndFor : Option String
  kwLoop : Option String
  kwLoopWhile : Option String
  kwEndLoop : Option String

/-- Closed dispatch table standing for the function-valued
methodTransform entries of the sc-06 style configuration; each tag is
interpreted by the generator exactly as the corresponding closure. -/
inductive MTrans where
  | setT | getT | putT | containsKeyT | removeT | sizeT | addAtT
deriving Repr, DecidableEq

/-- Style configuration for pseudocode formatting. -/
structure StyleConfig where
  keyword : StyleKeywords
  boolTrue : String
  boolFalse : String
  andW : String
  orW : String
  notW : String
  neqW : String
  modW : String
  indent : String
  wrapRelationalInAssign : Bool
  wrapRelationalInLogical : Bool
  wrapMulInAdd : Bool
  methodAlias : List (String × String)
  methodTransform : List (String × MTrans)
  specialMethodMap : List (String × String)

/-- Relational operator set of the generator. -/
def relationalOps : List String := ["<", ">", "<=", ">=", "==", "!="]

/-- Logical operator set of the generator. -/
def logicalOps : List String := ["&&", "||"]

/-- Resolve style options by id (generator.ts, resolveStyle); an absent
or unknown id falls through to the default configuration. -/
def resolveStyle (styleId : Option String) : StyleConfig :=
  let style := styleId.getD "sc-02"
  if style == "sc-01" then
    { keyword :=
        { kwIf := "IF", kwThen := "THEN", kwElse := "ELSE", kwElseIf := "ELSE IF",
          kwEndIf := "END IF", kwInput := "INPUT", kwOutput := "OUTPUT",
          kwWhile := some "WHILE", kwDo := some "DO", kwEndWhile := some "END WHILE",
          kwRepeat := some "REPEAT", kwUntil := "UNTIL", kwFor := some "FOR",
          kwEndFor := some "END FOR", kwLoop := none, kwLoopWhile := none,
          kwEndLoop := none }
      boolTrue := "TRUE", boolFalse := "FALSE", andW := "AND", orW := "OR",
      notW := "NOT", neqW := "!=", modW := "%", indent := "  ",
      wrapRelationalInAssign := true, wrapRelationalInLogical := true,
      wrapMulInAdd := false, methodAlias := [], methodTransform := [],
      specialMethodMap := [] }
  else if style == "sc-03" || style == "sc-07" || style == "sc-09" then
    { keyword :=
        { kwIf := "if", kwThen := "then", kwElse := "else", kwElseIf := "else if",
          kwEndIf := "end if", kwInput := "input", kwOutput := "output",
          kwWhile := none, kwDo := none, kwEndWhile := none, kwRepeat := none,
          kwUntil := "until", kwFor := none, kwEndFor := none,
          kwLoop := some "loop", kwLoopWhile := some "loop while",
          kwEndLoop := some "end loop" }
      boolTrue := "true", boolFalse := "false", andW := "and", orW := "or",
      notW := "not", neqW := "<>", modW := "mod", indent := "    ",
      wrapRelationalInAssign := false, wrapRelationalInLogical := true,
      wrapMulInAdd := false, methodAlias := [], methodTransform := [],
      specialMethodMap := [] }
  else if style == "sc-04" || style == "sc-05" || style == "sc-08" then
    { keyword :=
        { kwIf := "if", kwThen := "then", kwElse := "else", kwElseIf := "else if",
          kwEndIf := "end if", kwInput := "input", kwOutput := "output",
          kwWhile := none, kwDo := none, kwEndWhile := none, kwRepeat := none,
          kwUntil := "until", kwFor := none, kwEndFor := none,
          kwLoop := some "loop", kwLoopWhile := some "loop while",
          kwEndLoop := some "end loop" }
      boolTrue := "true", boolFalse := "false", andW := "and", orW := "or",
      notW := "not", neqW := "<>", modW := "mod", indent := "    ",
      wrapRelationalInAssign := false, wrapRelationalInLogical := true,
      wrapMulInAdd := true, methodAlias := [], methodTransform := [],
      specialMethodMap := [] }
  else if style == "sc-06" then
    { keyword :=
        { kwIf := "if", kwThen := "then", kwElse := "else", kwElseIf := "else if",
          kwEndIf := "end if", kwInput := "input", kwOutput := "output",
          kwWhile := none, kwDo := none, kwEndWhile := none, kwRepeat := none,
          kwUntil := "until", kwFor := none, kwEndFor := none,
          kwLoop := some "loop", kwLoopWhile := some "loop while",
          kwEndLoop := some "end loop" }
      boolTrue := "true", boolFalse := "false", andW := "and", orW := "or",
      notW := "not", neqW := "<>", modW := "mod", indent := "    ",
      wrapRelationalInAssign := false, wrapRelationalInLogical := true,
      wrapMulInAdd := false,
      methodAlias := [("add", "addItem")],
      methodTransform :=
        [("set", MTrans.setT), ("get", MTrans.getT), ("put", MTrans.putT),
         ("containsKey", MTrans.containsKeyT), ("remove", MTrans.removeT),
         ("size", MTrans.sizeT), ("addAt", MTrans.addAtT)],
      specialMethodMap := [("add,2", "insertItemAt")] }
  else
    { keyword :=
        { kwIf := "if", kwThen := "then", kwElse := "else", kwElseIf := "else if",
          kwEndIf := "end if", kwInput := "input", kwOutput := "output",
          kwWhile := some "while", kwDo := some "do", kwEndWhile := some "end while",
          kwRepeat := some "repeat", kwUntil := "until", kwFor := some "for",
          kwEndFor := some "end for", kwLoop := none, kwLoopWhile := none,
          kwEndLoop := none }
      boolTrue := "true", boolFalse := "false", andW := "and", orW := "or",
      notW := "not", neqW := "<>", modW := "mod", indent := "    ",
      wrapRelationalInAssign := false, wrapRelationalInLogical := true,
      wrapMulInAdd := false, methodAlias := [], methodTransform := [],
      specialMethodMap := [] }

/-- Translate operator token into styled output (pseudoOperator). -/
def pseudoOperator (op : String) (st : StyleConfig) : String :=
  if op == "&&" then st.andW
  else if op == "||" then st.orW
  else if op == "==" then "="
  else if op == "!=" then st.neqW
  else if op == "%" then st.modW
  else op

/-- Operator precedence weight for wrapping checks (precedence). -/
def precedence (op : String) : Nat :=
  if op == "||" then 1
  else if op == "&&" then 2
  else if op == "==" || op == "!=" then 3
  else if op == "<" || op == ">" || op == "<=" || op == ">=" then 4
  else if op == "+" || op == "-" then 5
  else if op == "*" || op == "/" || op == "%" then 6
  else 0

/-- A relational binary operation (isRelational). -/
def isRelational : AstNode → Bool
  | .Binary op _ _ => relationalOps.contains op
  | _ => false

/-- Property access chain, e.g. the console target (getPropertyChain). -/
def getPropertyChain : AstNode → List String
  | .Identifier n => [n]
  | .Property obj n => getPropertyChain obj ++ [n]
  | _ => []

/-- The receiver chain equals the conventional console output target
(isSystemOut). -/
def isSystemOut (node : AstNode) : Bool :=
  String.intercalate "." (getPropertyChain node) == "System.out"

/-- Scanner input method recognition (isScannerInputCall). -/
def isScannerInputCall : AstNode → Bool
  | .MethodCall obj name _ =>
    if (name == "nextLine" || name == "nextInt" || name == "nextDouble" ||
        name == "nextBoolean" || name == "next") then
      match obj with
      | .Identifier _ => true
      | _ => false
    else if name == "charAt" then
      match obj with
      | .MethodCall o m a => isScannerInputCall (AstNode.MethodCall o m a)
      | _ => false
    else false
  | _ => false

/-- Whether a child expression requires parentheses (shouldWrapChild). -/
def shouldWrapChild (child : AstNode) (parentOp : String) (st : StyleConfig) : Bool :=
  match child with
  | .Binary childOp _ _ =>
    if st.wrapMulInAdd && parentOp == "-" &&
        (childOp == "*" || childOp == "/" || childOp == "%") then true
    else if (parentOp == "==" || parentOp == "!=" || relationalOps.contains parentOp) &&
        childOp == "%" then true
    else if logicalOps.contains parentOp && relationalOps.contains childOp then
      st.wrapRelationalInLogical
    else decide (precedence childOp < precedence parentOp)
  | _ => false

/-- Flatten chained logical expressions into a list
(flattenLogicalChain). -/
def flattenLogicalChain (op : String) : AstNode → List AstNode
  | .Binary op2 l r =>
    if op2 == op then flattenLogicalChain op l ++ flattenLogicalChain op r
    else [.Binary op2 l r]
  | node => [node]

/-- Flatten chained string concatenations into a list (flattenConcat). -/
def flattenConcat : AstNode → List AstNode
  | .Binary op l r =>
    if op == "+" then flattenConcat l ++ flattenConcat r
    else [.Binary op l r]
  | node => [node]

/-- A string-literal node: its raw value starts with a double quote
(isStringLiteral). -/
def isStringLiteral : AstNode → Bool
  | .Literal v =>
    match v.data with
    | c :: _ => c == '"'
    | [] => false
  | _ => false

/-- Some node in the list is a string literal (containsStringLiteral). -/
def containsStringLiteral (nodes : List AstNode) : Bool :=
  nodes.any isStringLiteral

mutual

/-- Emit expression text for a node (emitExpression).  The fuel
argument only bounds the recursion depth; every recursive call descends
into the tree, so any fuel at least the node depth is never exhausted. -/
def emitExpression (st : StyleConfig) : Nat → AstNode → String
  | 0, _ => "<?>"
  | n + 1, node =>
    match node with
    | .Literal v =>
      if v == "true" then st.boolTrue
      else if v == "false" then st.boolFalse
      else v
    | .Identifier name => name
    | .Property obj name => emitExpression st n obj ++ "." ++ name
    | .Call name args =>
      name ++ "(" ++ String.intercalate ", " (emitList st n args) ++ ")"
    | .MethodCall obj name children =>
      let args := emitList st n children
      if name == "remove" then
        match obj with
        | .Identifier objName =>
          if objName == "map" then
            "remove " ++ emitExpression st n obj ++ "[" ++ args.getD 0 "undefined" ++ "]"
          else
            emitExpression st n obj ++ ".removeItemAt(" ++ String.intercalate ", " args ++ ")"
        | _ =>
          emitExpression st n obj ++ ".removeItemAt(" ++ String.intercalate ", " args ++ ")"
      else
        let argKey := name ++ "," ++ toString args.length
        match st.specialMethodMap.lookup argKey with
        | some mapped =>
          emitExpression st n obj ++ "." ++ mapped ++ "(" ++ String.intercalate ", " args ++ ")"
        | none =>
          match st.methodAlias.lookup name with
          | some aliasName =>
            emitExpression st n obj ++ "." ++ aliasName ++ "(" ++ String.intercalate ", " args ++ ")"
          | none =>
            match st.methodTransform.lookup name with
            | some t =>
              let objText := emitExpression st n obj
              match t with
              | MTrans.setT => objText ++ "[" ++ args.getD 0 "undefined" ++ "] = " ++ args.getD 1 "undefined"
              | MTrans.getT => objText ++ "[" ++ args.getD 0 "undefined" ++ "]"
              | MTrans.putT => objText ++ "[" ++ args.getD 0 "undefined" ++ "] = " ++ args.getD 1 "undefined"
              | MTrans.containsKeyT => "containsKey(" ++ objText ++ ", " ++ args.getD 0 "undefined" ++ ")"
              | MTrans.removeT =>
                if objText == "map" then "remove " ++ objText ++ "[" ++ args.getD 0 "undefined" ++ "]"
                else objText ++ ".removeItemAt(" ++ String.intercalate ", " args ++ ")"
              | MTrans.sizeT => "length(" ++ objText ++ ")"
              | MTrans.addAtT => objText ++ ".insertItemAt(" ++ String.intercalate ", " args ++ ")"
            | none =>
              emitExpression st n obj ++ "." ++ name ++ "(" ++ String.intercalate ", " args ++ ")"
    | .ArrayAccess name children =>
      name ++ "[" ++ String.intercalate "][" (emitList st n children) ++ "]"
    | .Length child => "length(" ++ emitExpression st n child ++ ")"
    | .NewArray _ dims =>
      "new array[" ++ String.intercalate "][" (emitList st n dims) ++ "]"
    | .ArrayLiteral children =>
      "[" ++ String.intercalate ", " (emitList st n children) ++ "]"
    | .Unary op child =>
      let inner := emitExpression st n child
      let needsParens : Bool := match child with | .Binary _ _ _ => true | _ => false
      if op == "!" then
        st.notW ++ " " ++ (if needsParens then "(" ++ inner ++ ")" else inner)
      else
        op ++ (if needsParens then "(" ++ inner ++ ")" else inner)
    | .UnaryPostfixNode op child =>
      if op == "++" then emitExpression st n child ++ " + 1"
      else if op == "--" then emitExpression st n child ++ " - 1"
      else emitExpression st n child ++ " " ++ pseudoOperator op st
    | .Update target op =>
      let t := emitExpression st n target
      t ++ " = " ++ t ++ " " ++ (if op == "++" then "+" else "-") ++ " 1"
    | .Binary op l r =>
      if op == "||" || op == "&&" then
        let chain := flattenLogicalChain op (AstNode.Binary op l r)
        let wrapRel := op == "&&" || (op == "||" && chain.length == 2)
        let rendered := emitWrapList st wrapRel n chain
        String.intercalate (" " ++ pseudoOperator op st ++ " ") rendered
      else
        let left := emitExpression st n l
        let right := emitExpression st n r
        let left := if shouldWrapChild l op st then "(" ++ left ++ ")" else left
        let right := if shouldWrapChild r op st then "(" ++ right ++ ")" else right
        left ++ " " ++ pseudoOperator op st ++ " " ++ right
    | _ => "<?>"

/-- Emit a list of expressions (the argument maps of the source). -/
def emitList (st : StyleConfig) : Nat → List AstNode → List String
  | 0, _ => []
  | _ + 1, [] => []
  | n + 1, x :: xs => emitExpression st n x :: emitList st n xs

/-- Emit a flattened logical chain, parenthesizing relational members
when the style requires it (the map in the logical-chain case). -/
def emitWrapList (st : StyleConfig) (wrapRel : Bool) : Nat → List AstNode → List String
  | 0, _ => []
  | _ + 1, [] => []
  | n + 1, x :: xs =>
    let tx := emitExpression st n x
    (if wrapRel && isRelational x then "(" ++ tx ++ ")" else tx) ::
      emitWrapList st wrapRel n xs

end

/-- Apply style rules when formatting an assignment right-hand side
(formatRhs). -/
def formatRhs (st : StyleConfig) (n : Nat) (expr : AstNode) : String :=
  let text := emitExpression st n expr
  if st.wrapRelationalInAssign && isRelational expr then "(" ++ text ++ ")" else text

/-- Format an expression for output statements, parenthesizing binary
expressions (formatOutputExpression). -/
def formatOutputExpression (st : StyleConfig) (n : Nat) (node : AstNode) : String :=
  let text := emitExpression st n node
  match node with
  | .Binary _ _ _ => "(" ++ text ++ ")"
  | _ => text

/-- Raw value of a literal node (the value field read by the output
splitter on string-literal parts). -/
def literalValue : AstNode → String
  | .Literal v => v
  | _ => "undefined"

/-- Split one output expression into output arguments: a concatenation
chain containing a string literal becomes one argument per part
(formatOutputArgsFromExpression). -/
def formatOutputArgsFromExpression (st : StyleConfig) (n : Nat) (expr : AstNode) : List String :=
  let parts := flattenConcat expr
  if decide (1 < parts.length) && containsStringLiteral parts then
    parts.map fun part =>
      if isStringLiteral part then literalValue part else formatOutputExpression st n part
  else [formatOutputExpression st n expr]

/-- Output arguments of a console call (formatOutputArgsFromCall). -/
def formatOutputArgsFromCall (st : StyleConfig) (n : Nat) (call : AstNode) : List String :=
  match call with
  | .MethodCall _ _ children =>
    match children with
    | [] => []
    | [single] => formatOutputArgsFromExpression st n single
    | _ => children.map (formatOutputExpression st n)
  | _ => []

/-- Render a recognized console print call as an output statement
(formatSystemOutCall); other nodes yield none. -/
def formatSystemOutCall (st : StyleConfig) (n : Nat) (call : AstNode) : Option String :=
  match call with
  | .MethodCall obj name _ =>
    if name != "print" && name != "println" then none
    else if !isSystemOut obj then none
    else
      let args := formatOutputArgsFromCall st n call
      if args.isEmpty then some st.keyword.kwOutput
      else some (st.keyword.kwOutput ++ " " ++ String.intercalate ", " args)
  | _ => none

/-- The fixed relational inversion table of the do-while renderer. -/
def inverseOp (op : String) : Option String :=
  if op == "<" then some ">="
  else if op == "<=" then some ">"
  else if op == ">" then some "<="
  else if op == ">=" then some "<"
  else if op == "==" then some "!="
  else if op == "!=" then some "=="
  else none

/-- Invert a condition for loop-until output (invertCondition): strip a
logical negation, swap a relational operator through the fixed table, or
wrap in a logical negation. -/
def invertCondition (node : AstNode) : AstNode :=
  match node with
  | .Unary op child =>
    if op == "!" then child else .Unary "!" (.Unary op child)
  | .Binary op l r =>
    match inverseOp op with
    | some iop => .Binary iop l r
    | none => .Unary "!" (.Binary op l r)
  | other => .Unary "!" other

/-- Base operator of a compound assignment operator (the opMap tables of
the generator's assignment cases). -/
def compoundBase (op : String) : String :=
  if op == "+=" then "+"
  else if op == "-=" then "-"
  else if op == "*=" then "*"
  else if op == "/=" then "/"
  else if op == "%=" then "%"
  else "undefined"

/-- Format a for-loop header in the bounded from/to/downto/step form
(formatForLoop): start from the initializer, step and direction from the
update, and a closed end bound inferred from the test, literal bounds
being adjusted by the step for strict comparisons. -/
def formatForLoop (st : StyleConfig) (n : Nat)
    (init test update : Option AstNode) : String :=
  let name :=
    match init with
    | some (.Assignment target _ _) => emitExpression st n target
    | some (.Declaration nm _ _) => nm
    | _ => ""
  let start :=
    match init with
    | some (.Assignment _ _ v) => emitExpression st n v
    | some (.Declaration _ _ children) =>
      match children with
      | c :: _ => emitExpression st n c
      | [] => "0"
    | _ => "0"
  let sd : String × String :=
    match update with
    | some (.Update _ op) => if op == "--" then ("1", "downto") else ("1", "to")
    | some (.Assignment _ op v) =>
      let rhs := emitExpression st n v
      if op == "+=" then (rhs, "to")
      else if op == "-=" then (rhs, "downto")
      else ("1", "to")
    | some (.AssignmentExpr _ op v) =>
      let rhs := emitExpression st n v
      if op == "+=" then (rhs, "to")
      else if op == "-=" then (rhs, "downto")
      else ("1", "to")
    | _ => ("1", "to")
  let step := sd.1
  let ed : String × String :=
    match test with
    | some (.Binary op _ rhsNode) =>
      let rhsText := emitExpression st n rhsNode
      if op == "<" then
        let endText :=
          match rhsNode with
          | .Literal _ =>
            (match jsNumber rhsText, jsNumber step with
             | some rn, some sn =>
               if jsPos sn then jsNumToString (jsSub rn sn)
               else jsNumToString (jsSub rn ⟨1, 0⟩)
             | some rn, none => jsNumToString (jsSub rn ⟨1, 0⟩)
             | none, _ => "NaN")
          | _ => rhsText ++ " - " ++ step
        (endText, sd.2)
      else if op == "<=" then (rhsText, sd.2)
      else if op == ">" then
        let endText :=
          match rhsNode with
          | .Literal _ =>
            (match jsNumber rhsText, jsNumber step with
             | some rn, some sn =>
               if jsPos sn then jsNumToString (jsAdd rn sn)
               else jsNumToString (jsAdd rn ⟨1, 0⟩)
             | some rn, none => jsNumToString (jsAdd rn ⟨1, 0⟩)
             | none, _ => "NaN")
          | _ => rhsText ++ " + " ++ step
        (endText, "downto")
      else if op == ">=" then (rhsText, "downto")
      else ("", sd.2)
    | _ => ("", sd.2)
  let stepText := if step == "1" then "" else " step " ++ step
  String.mk (jsTrimList
    (name ++ " from " ++ start ++ " " ++ ed.2 ++ " " ++ ed.1 ++ stepText).data)

/-- Collect a right-nested if/else-if chain and its final else branch
(collectIfChain). -/
def collectIfChain : AstNode → List (AstNode × AstNode) × Option AstNode
  | .If test consequent (some alt) =>
    (match alt with
     | .If t2 c2 a2 =>
       let rest := collectIfChain (.If t2 c2 a2)
       ((test, consequent) :: rest.1, rest.2)
     | other => ([(test, consequent)], some other))
  | .If test consequent none => ([(test, consequent)], none)
  | _ => ([], none)

/-- Indentation prefix at a nesting depth. -/
def padOf (st : StyleConfig) (depth : Nat) : String :=
  String.join (List.replicate depth st.indent)

mutual

/-- Pre-order pseudocode line emission (the walk closure of
generatePseudocode).  The fuel argument only bounds the recursion depth,
which every call strictly descends. -/
def walk (st : StyleConfig) : Nat → AstNode → Nat → List String
  | 0, _, _ => []
  | n + 1, node, depth =>
    let pad := padOf st depth
    match node with
    | .Program children => walkList st n children depth
    | .Block children => walkList st n children depth
    | .Declaration name _ children =>
      (match children with
       | [] => [pad ++ name]
       | c :: _ =>
         if isScannerInputCall c then [pad ++ st.keyword.kwInput ++ " " ++ name]
         else [pad ++ name ++ " = " ++ formatRhs st n c])
    | .Assignment target op rhs =>
      let t := emitExpression st n target
      if isScannerInputCall rhs then [pad ++ st.keyword.kwInput ++ " " ++ t]
      else if op == "=" then [pad ++ t ++ " = " ++ formatRhs st n rhs]
      else
        [pad ++ t ++ " = " ++ t ++ " " ++ pseudoOperator (compoundBase op) st ++ " " ++
          emitExpression st n rhs]
    | .AssignmentExpr target op rhs =>
      let t := emitExpression st n target
      if isScannerInputCall rhs then [pad ++ st.keyword.kwInput ++ " " ++ t]
      else if op == "=" then [pad ++ t ++ " = " ++ formatRhs st n rhs]
      else
        [pad ++ t ++ " = " ++ t ++ " " ++ pseudoOperator (compoundBase op) st ++ " " ++
          emitExpression st n rhs]
    | .Update target op =>
      let t := emitExpression st n target
      [pad ++ t ++ " = " ++ t ++ " " ++ (if op == "++" then "+" else "-") ++ " 1"]
    | .CallStatement child =>
      (match formatSystemOutCall st n child with
       | some line => [pad ++ line]
       | none => [pad ++ emitExpression st n child])
    | .ExpressionStatement child =>
      (match formatSystemOutCall st n child with
       | some line => [pad ++ line]
       | none => [pad ++ emitExpression st n child])
    | .If test consequent alt =>
      let cf := collectIfChain (.If test consequent alt)
      let chainLines := walkChain st n cf.1 depth true
      let elseLines :=
        match cf.2 with
        | some fe => (pad ++ st.keyword.kwElse) :: walk st n fe (depth + 1)
        | none => []
      chainLines ++ elseLines ++ [pad ++ st.keyword.kwEndIf]
    | .While test body =>
      (match st.keyword.kwLoopWhile with
       | some loopWhile =>
         (pad ++ loopWhile ++ " " ++ emitExpression st n test) ::
           walk st n body (depth + 1) ++ [pad ++ st.keyword.kwEndLoop.getD "undefined"]
       | none =>
         (pad ++ st.keyword.kwWhile.getD "undefined" ++ " " ++ emitExpression st n test ++
            " " ++ st.keyword.kwDo.getD "undefined") ::
           walk st n body (depth + 1) ++ [pad ++ st.keyword.kwEndWhile.getD "undefined"])
    | .DoWhile body test =>
      (match st.keyword.kwLoop with
       | some loopKw =>
         (pad ++ loopKw) :: walk st n body (depth + 1) ++
           [pad ++ st.keyword.kwUntil ++ " " ++ emitExpression st n (invertCondition test)]
       | none =>
         (pad ++ st.keyword.kwRepeat.getD "undefined") :: walk st n body (depth + 1) ++
           [pad ++ st.keyword.kwUntil ++ " " ++ emitExpression st n test])
    | .For init test update body =>
      (match st.keyword.kwLoop with
       | some loopKw =>
         (pad ++ loopKw ++ " " ++ formatForLoop st n init test update) ::
           walk st n body (depth + 1) ++ [pad ++ st.keyword.kwEndLoop.getD "undefined"]
       | none =>
         let initText :=
           match init with
           | some (.Declaration nm _ children) =>
             nm ++ " = " ++
               (match children with
                | c :: _ => emitExpression st n c
                | [] => "0")
           | some (.Assignment target _ v) =>
             emitExpression st n target ++ " = " ++ emitExpression st n v
           | _ => ""
         let condText :=
           match test with
           | some t => emitExpression st n t
           | none => ""
         let updateText :=
           match update with
           | some (.Binary op l r) =>
             emitExpression st n l ++ " " ++ pseudoOperator op st ++ " " ++
               emitExpression st n r
           | some u => emitExpression st n u
           | none => ""
         (pad ++ st.keyword.kwFor.getD "undefined" ++ " " ++ initText ++ " ; " ++
            condText ++ " ; " ++ updateText) ::
           walk st n body (depth + 1) ++ [pad ++ st.keyword.kwEndFor.getD "undefined"])
    | other => [pad ++ "/* unsupported node " ++ other.typeName ++ " */"]

/-- Walk a statement list at one depth (the forEach of Program/Block). -/
def walkList (st : StyleConfig) : Nat → List AstNode → Nat → List String
  | 0, _, _ => []
  | _ + 1, [], _ => []
  | n + 1, x :: xs, depth => walk st n x depth ++ walkList st n xs depth

/-- Walk an if/else-if chain, emitting the heads and consequents
(the forEach over the collected chain). -/
def walkChain (st : StyleConfig) : Nat → List (AstNode × AstNode) → Nat → Bool → List String
  | 0, _, _, _ => []
  | _ + 1, [], _, _ => []
  | n + 1, (test, consequent) :: rest, depth, first =>
    let pad := padOf st depth
    let head := if first then st.keyword.kwIf else st.keyword.kwElseIf
    (pad ++ head ++ " " ++ emitExpression st n test ++ " " ++ st.keyword.kwThen) ::
      walk st n consequent (depth + 1) ++ walkChain st n rest depth false

end

mutual

/-- Structural size of a node (nodes and children counted), used to
bound the generator fuel. -/
def astSize : AstNode → Nat
  | .Program cs => astSizeList cs + 1
  | .Block cs => astSizeList cs + 1
  | .Declaration _ _ cs => astSizeList cs + 1
  | .Assignment t _ v => astSize t + astSize v + 1
  | .AssignmentExpr t _ v => astSize t + astSize v + 1
  | .Update t _ => astSize t + 1
  | .CallStatement c => astSize c + 1
  | .ExpressionStatement c => astSize c + 1
  | .If t c a => astSize t + astSize c + astSizeOpt a + 1
  | .While t b => astSize t + astSize b + 1
  | .DoWhile b t => astSize b + astSize t + 1
  | .For i t u b => astSizeOpt i + astSizeOpt t + astSizeOpt u + astSize b + 1
  | .Binary _ l r => astSize l + astSize r + 1
  | .Unary _ c => astSize c + 1
  | .UnaryPostfixNode _ c => astSize c + 1
  | .Literal _ => 1
  | .Identifier _ => 1
  | .ArrayAccess _ cs => astSizeList cs + 1
  | .Length c => astSize c + 1
  | .NewArray _ cs => astSizeList cs + 1
  | .ArrayLiteral cs => astSizeList cs + 1
  | .Call _ cs => astSizeList cs + 1
  | .MethodCall o _ cs => astSize o + astSizeList cs + 1
  | .Property o _ => astSize o + 1

/-- Structural size of a child list. -/
def astSizeList : List AstNode → Nat
  | [] => 0
  | x :: xs => astSize x + astSizeList xs

/-- Structural size of an optional child. -/
def astSizeOpt : Option AstNode → Nat
  | none => 0
  | some x => astSize x

end

/-- Fuel for the generator: one past the structural size of the tree
dominates every recursion depth the walk and emitter can reach. -/
def genFuel (ast : AstNode) : Nat := astSize ast + 1

/-- Generate pseudocode lines from the parsed AST under the selected
style (generator.ts, generatePseudocode). -/
def generatePseudocode (ast : AstNode) (styleId : Option String) : String :=
  String.intercalate "\n" (walk (resolveStyle styleId) (genFuel ast) ast 0)

/- ## Orchestrator (convert.ts) -/

/-- Observable outcome of convert: a pseudocode payload, a structured
error list, or an unhandled JavaScript fault escaping the call. -/
inductive ConvertOutcome where
  | pseudocode : String → ConvertOutcome
  | errors : List ConvertError → ConvertOutcome
  | fault : String → ConvertOutcome
deriving Repr, DecidableEq

/-- The unhandled TypeError thrown when the generator dereferences the
undefined AST that the styled convert passes it after ignoring a parse
error. -/
def undefinedAstFault : String :=
  "TypeError: Cannot read properties of undefined (reading 'type')"

/-- The styled convert orchestration with its five stages passed as
parameters (the stage calls of convert.ts): blank input short-circuits,
then normalization, scope guard, tokenizer and parser run in order, each
error stopping the pipeline; a parse error is ignored by the source, so
the generator is invoked on an undefined AST and the call ends in an
unhandled TypeError. -/
def convertWith (normF : String → String)
    (scopeF : String → Option ConvertError)
    (tokF : String → Except ConvertError (List Token))
    (parF : List Token → Except ConvertError AstNode)
    (genF : AstNode → Option String → String)
    (source : String) (styleId : Option String) : ConvertOutcome :=
  if jsBlank source then ConvertOutcome.errors [err "input" "Empty input" 1 1]
  else
    let normalized := normF source
    match scopeF normalized with
    | some e => ConvertOutcome.errors [e]
    | none =>
      match tokF normalized with
      | Except.error e => ConvertOutcome.errors [e]
      | Except.ok tokens =>
        match parF tokens with
        | Except.error _ => ConvertOutcome.fault undefinedAstFault
        | Except.ok ast => ConvertOutcome.pseudocode (genF ast styleId)

/-- Convert Java source to pseudocode in the selected style
(convert.ts, convert). -/
def convert (source : String) (styleId : Option String) : ConvertOutcome :=
  convertWith normalize scopeGuard tokenize parse generatePseudocode source styleId

/- ## Theorems -/

/- ### Cursor monotonicity (parser) -/

/-- The cursor never moves backwards across a successful run: whatever
position a parser operation is started at, the position it returns is at
least that start position. -/
def Mono {α : Type} (m : PM α) : Prop :=
  ∀ pos a pos', m pos = Except.ok (a, pos') → pos ≤ pos'

theorem mono_pure (a : α) : Mono (pure a : PM α) := by
  intro pos b p h
  cases h
  exact Nat.le_refl _

theorem mono_pthrow (e : ConvertError) : Mono (pthrow e : PM α) := by
  intro pos b p h
  cases h

theorem mono_bind {m : PM α} {k : α → PM β}
    (hm : Mono m) (hk : ∀ a, Mono (k a)) : Mono (m >>= k) := by
  intro pos b p2 h
  have h' : PM.bind m k pos = Except.ok (b, p2) := h
  unfold PM.bind at h'
  split at h'
  · cases h'
  · next a p1 hmp => exact Nat.le_trans (hm _ _ _ hmp) (hk a _ _ _ h')

theorem mono_getPos : Mono getPos := by
  intro pos a p h
  cases h
  exact Nat.le_refl _

theorem mono_advance : Mono advance := by
  intro pos a p h
  cases h
  exact Nat.le_succ _

theorem mono_curTokD (tks : List Token) : Mono (curTokD tks) := by
  intro pos a p h
  unfold curTokD at h
  split at h
  · cases h; exact Nat.le_refl _
  · cases h

theorem mono_pmatch (tks : List Token) (ty : String) (v : Option String) :
    Mono (pmatch tks ty v) := by
  intro pos a p h
  unfold pmatch at h
  split at h
  · cases h; exact Nat.le_refl _
  · split at h
    · cases h; exact Nat.le_succ _
    · cases h; exact Nat.le_refl _

theorem mono_pexpect (tks : List Token) (ty : String) (v msg : Option String) :
    Mono (pexpect tks ty v msg) := by
  intro pos a p h
  unfold pexpect at h
  split at h
  · split at h
    · cases h; exact Nat.le_succ _
    · cases h
  · cases h

theorem mono_skipMods (tks : List Token) : ∀ n, Mono (skipMods tks n) := by
  intro n
  induction n with
  | zero => exact mono_pthrow _
  | succ n ih =>
    simp only [skipMods]
    apply mono_bind (mono_curTokD tks)
    intro tok
    split
    · exact mono_bind mono_advance fun _ => ih
    · exact mono_pure _

theorem mono_classBraceSkip (tks : List Token) : ∀ n, Mono (classBraceSkip tks n) := by
  intro n
  induction n with
  | zero => exact mono_pthrow _
  | succ n ih =>
    simp only [classBraceSkip]
    apply mono_bind (mono_pmatch tks "brace" (some "\x7b"))
    intro o
    cases o with
    | some _ => exact mono_pure _
    | none =>
      apply mono_bind (mono_curTokD tks)
      intro cur
      split
      · exact mono_pthrow _
      · exact mono_bind mono_advance fun _ => ih

theorem mono_mainSigSkip (tks : List Token) : ∀ n, Mono (mainSigSkip tks n) := by
  intro n
  induction n with
  | zero => exact mono_pthrow _
  | succ n ih =>
    simp only [mainSigSkip]
    apply mono_bind (mono_curTokD tks)
    intro cur
    split
    · exact mono_bind mono_advance fun _ => ih
    · exact mono_pure _

theorem mono_trailingBraces (tks : List Token) : ∀ n, Mono (trailingBraces tks n) := by
  intro n
  induction n with
  | zero => exact mono_pthrow _
  | succ n ih =>
    simp only [trailingBraces]
    apply mono_bind (mono_curTokD tks)
    intro cur
    split
    · exact mono_bind mono_advance fun _ => ih
    · exact mono_pure _

theorem mono_declBrackets (tks : List Token) : ∀ n, Mono (declBrackets tks n) := by
  intro n
  induction n with
  | zero => exact mono_pthrow _
  | succ n ih =>
    simp only [declBrackets]
    apply mono_bind (mono_pmatch tks "bracket" (some "["))
    intro o
    cases o with
    | some _ =>
      exact mono_bind (mono_pexpect tks "bracket" (some "]") _) fun _ => ih
    | none => exact mono_pure _

theorem mono_tryOps (tks : List Token) : ∀ ops, Mono (tryOps tks ops) := by
  intro ops
  induction ops with
  | nil => exact mono_pure _
  | cons op rest ih =>
    simp only [tryOps]
    apply mono_bind (mono_pmatch tks "operator" (some op))
    intro o
    cases o with
    | some tok => exact mono_pure _
    | none => exact ih

theorem mono_binLoop (tks : List Token) (ops : List String) (next : PM AstNode)
    (hnext : Mono next) : ∀ n e, Mono (binLoop tks ops next n e) := by
  intro n
  induction n with
  | zero => intro e; exact mono_pthrow _
  | succ n ih =>
    intro e
    simp only [binLoop]
    apply mono_bind (mono_tryOps tks ops)
    intro o
    cases o with
    | none => exact mono_pure _
    | some op =>
      apply mono_bind hnext
      intro r
      exact ih _

/-- Cursor monotonicity of every parser method at one fuel level. -/
structure ParserMono (p : ParserFns) : Prop where
  program : Mono p.parseProgram
  statements : Mono p.parseStatements
  statement : Mono p.parseStatement
  exprStatement : Mono p.parseExpressionStatement
  block : Mono p.parseBlock
  declaration : Mono p.parseDeclaration
  targetFromIdentifier : Mono p.parseTargetFromIdentifier
  targetWithName : ∀ name, Mono (p.parseTargetWithName name)
  indices : ∀ acc, Mono (p.parseIndices acc)
  assignment : Mono p.parseAssignment
  updateCore : ∀ b, Mono (p.parseUpdateCore b)
  ifStmt : Mono p.parseIf
  whileStmt : Mono p.parseWhile
  doWhileStmt : Mono p.parseDoWhile
  forStmt : Mono p.parseFor
  expression : Mono p.parseExpression
  assignmentExpression : Mono p.parseAssignmentExpression
  orE : Mono p.parseOr
  andE : Mono p.parseAnd
  equality : Mono p.parseEquality
  relational : Mono p.parseRelational
  additive : Mono p.parseAdditive
  multiplicative : Mono p.parseMultiplicative
  unary : Mono p.parseUnary
  primary : Mono p.parsePrimary
  postfixChain : ∀ node, Mono (p.parsePostfixChain node)
  sepList : ∀ a b c, Mono (p.parseSepList a b c)
  sepLoop : ∀ a b c e, Mono (p.sepListLoop a b c e)
  callStatement : Mono p.parseCallStatement
  arrayCreation : Mono p.parseArrayCreation
  dims : ∀ acc, Mono (p.parseDims acc)

theorem parserFnsMono (tks : List Token) : ∀ n, ParserMono (parserFns tks n) := by
  intro n
  induction n with
  | zero =>
    exact {
      program := mono_pthrow _
      statements := mono_pthrow _
      statement := mono_pthrow _
      exprStatement := mono_pthrow _
      block := mono_pthrow _
      declaration := mono_pthrow _
      targetFromIdentifier := mono_pthrow _
      targetWithName := fun _ => mono_pthrow _
      indices := fun _ => mono_pthrow _
      assignment := mono_pthrow _
      updateCore := fun _ => mono_pthrow _
      ifStmt := mono_pthrow _
      whileStmt := mono_pthrow _
      doWhileStmt := mono_pthrow _
      forStmt := mono_pthrow _
      expression := mono_pthrow _
      assignmentExpression := mono_pthrow _
      orE := mono_pthrow _
      andE := mono_pthrow _
      equality := mono_pthrow _
      relational := mono_pthrow _
      additive := mono_pthrow _
      multiplicative := mono_pthrow _
      unary := mono_pthrow _
      primary := mono_pthrow _
      postfixChain := fun _ => mono_pthrow _
      sepList := fun _ _ _ => mono_pthrow _
      sepLoop := fun _ _ _ _ => mono_pthrow _
      callStatement := mono_pthrow _
      arrayCreation := mono_pthrow _
      dims := fun _ => mono_pthrow _ }
  | succ n ih =>
    refine {
      program := ?_
      statements := ?_
      statement := ?_
      exprStatement := ?_
      block := ?_
      declaration := ?_
      targetFromIdentifier := ?_
      targetWithName := ?_
      indices := ?_
      assignment := ?_
      updateCore := ?_
      ifStmt := ?_
      whileStmt := ?_
      doWhileStmt := ?_
      forStmt := ?_
      expression := ?_
      assignmentExpression := ?_
      orE := ?_
      andE := ?_
      equality := ?_
      relational := ?_
      additive := ?_
      multiplicative := ?_
      unary := ?_
      primary := ?_
      postfixChain := ?_
      sepList := ?_
      sepLoop := ?_
      callStatement := ?_
      arrayCreation := ?_
      dims := ?_ }
    · -- parseProgram
      simp only [parserFns]
      apply mono_bind (mono_skipMods tks n); intro _
      apply mono_bind (mono_pmatch tks "keyword" (some "class")); intro c
      apply mono_bind ?_ ?_
      · cases c with
        | some _ => exact mono_classBraceSkip tks n
        | none => exact mono_pure _
      · intro _
        apply mono_bind (mono_curTokD tks); intro tok
        split
        · apply mono_bind (mono_mainSigSkip tks n); intro _
          apply mono_bind (mono_curTokD tks); intro tok2
          split
          · apply mono_bind ih.block; intro blk
            exact mono_bind (mono_trailingBraces tks n) fun _ => mono_pure _
          · exact mono_bind ih.statements fun _ => mono_pure _
        · exact mono_bind ih.statements fun _ => mono_pure _
    · -- parseStatements
      simp only [parserFns]
      apply mono_bind (mono_curTokD tks); intro cur
      split
      · apply mono_bind ih.statement; intro s
        exact mono_bind ih.statements fun _ => mono_pure _
      · exact mono_pure _
    · -- parseStatement
      simp only [parserFns]
      apply mono_bind (mono_curTokD tks); intro tok
      split
      · split
        · exact ih.ifStmt
        · exact ih.whileStmt
        · exact ih.forStmt
        · exact ih.doWhileStmt
        · exact ih.declaration
        · exact ih.declaration
        · exact ih.declaration
        · exact ih.declaration
        · exact ih.declaration
        · exact ih.declaration
        · exact mono_pthrow _
      · split
        · exact ih.block
        · split
          · apply mono_bind mono_getPos; intro pos
            split
            · exact ih.updateCore true
            · split
              · exact ih.callStatement
              · split
                · exact ih.assignment
                · exact ih.exprStatement
          · exact mono_pthrow _
    · -- parseExpressionStatement
      simp only [parserFns]
      apply mono_bind ih.expression; intro e
      exact mono_bind (mono_pexpect tks "semicolon" (some ";") _) fun _ => mono_pure _
    · -- parseBlock
      simp only [parserFns]
      apply mono_bind (mono_pexpect tks "brace" (some "\x7b") _); intro _
      apply mono_bind ih.statements; intro stmts
      exact mono_bind (mono_pexpect tks "brace" (some "\x7d") _) fun _ => mono_pure _
    · -- parseDeclaration
      simp only [parserFns]
      apply mono_bind (mono_curTokD tks); intro typeTok
      apply mono_bind mono_advance; intro _
      apply mono_bind (mono_declBrackets tks n); intro _
      apply mono_bind (mono_pexpect tks "identifier" none _); intro nameTok
      apply mono_bind (mono_declBrackets tks n); intro _
      apply mono_bind ?_ ?_
      · apply mono_bind (mono_pmatch tks "operator" (some "=")); intro o
        cases o with
        | some _ => exact mono_bind ih.expression fun _ => mono_pure _
        | none => exact mono_pure _
      · intro init
        exact mono_bind (mono_pexpect tks "semicolon" (some ";") _) fun _ => mono_pure _
    · -- parseTargetFromIdentifier
      simp only [parserFns]
      apply mono_bind (mono_pexpect tks "identifier" none _); intro nameTok
      exact ih.targetWithName _
    · -- parseTargetWithName
      intro name
      simp only [parserFns]
      apply mono_bind (mono_pmatch tks "bracket" (some "[")); intro o
      cases o with
      | some _ =>
        apply mono_bind ih.expression; intro idx
        apply mono_bind (mono_pexpect tks "bracket" (some "]") _); intro _
        exact mono_bind (ih.indices _) fun _ => mono_pure _
      | none => exact mono_pure _
    · -- parseIndices
      intro acc
      simp only [parserFns]
      apply mono_bind (mono_pmatch tks "bracket" (some "[")); intro o
      cases o with
      | some _ =>
        apply mono_bind ih.expression; intro idx
        apply mono_bind (mono_pexpect tks "bracket" (some "]") _); intro _
        exact ih.indices _
      | none => exact mono_pure _
    · -- parseAssignment
      simp only [parserFns]
      apply mono_bind ih.targetFromIdentifier; intro target
      apply mono_bind (mono_pexpect tks "operator" none _); intro opTok
      split
      · apply mono_bind ih.assignmentExpression; intro e
        exact mono_bind (mono_pexpect tks "semicolon" (some ";") _) fun _ => mono_pure _
      · exact mono_pthrow _
    · -- parseUpdateCore
      intro b
      simp only [parserFns]
      apply mono_bind ih.targetFromIdentifier; intro target
      apply mono_bind (mono_pexpect tks "operator" none _); intro opTok
      split
      · apply mono_bind ?_ ?_
        · split
          · exact mono_bind (mono_pexpect tks "semicolon" (some ";") _) fun _ => mono_pure _
          · exact mono_pure _
        · intro _; exact mono_pure _
      · exact mono_pthrow _
    · -- parseIf
      simp only [parserFns]
      apply mono_bind (mono_pexpect tks "keyword" (some "if") _); intro _
      apply mono_bind (mono_pexpect tks "paren" (some "(") _); intro _
      apply mono_bind ih.expression; intro test
      apply mono_bind (mono_pexpect tks "paren" (some ")") _); intro _
      apply mono_bind ih.statement; intro consequent
      apply mono_bind (mono_pmatch tks "keyword" (some "else")); intro o
      cases o with
      | some _ => exact mono_bind ih.statement fun _ => mono_pure _
      | none => exact mono_pure _
    · -- parseWhile
      simp only [parserFns]
      apply mono_bind (mono_pexpect tks "keyword" (some "while") _); intro _
      apply mono_bind (mono_pexpect tks "paren" (some "(") _); intro _
      apply mono_bind ih.expression; intro test
      apply mono_bind (mono_pexpect tks "paren" (some ")") _); intro _
      exact mono_bind ih.statement fun _ => mono_pure _
    · -- parseDoWhile
      simp only [parserFns]
      apply mono_bind (mono_pexpect tks "keyword" (some "do") _); intro _
      apply mono_bind ih.statement; intro body
      apply mono_bind (mono_pexpect tks "keyword" (some "while") _); intro _
      apply mono_bind (mono_pexpect tks "paren" (some "(") _); intro _
      apply mono_bind ih.expression; intro test
      apply mono_bind (mono_pexpect tks "paren" (some ")") _); intro _
      exact mono_bind (mono_pexpect tks "semicolon" (some ";") _) fun _ => mono_pure _
    · -- parseFor
      simp only [parserFns]
      apply mono_bind (mono_pexpect tks "keyword" (some "for") _); intro _
      apply mono_bind (mono_pexpect tks "paren" (some "(") _); intro _
      apply mono_bind ?_ ?_
      · apply mono_bind (mono_pmatch tks "semicolon" (some ";")); intro o
        cases o with
        | some _ => exact mono_pure _
        | none =>
          apply mono_bind (mono_curTokD tks); intro cur
          split
          · exact mono_bind ih.declaration fun _ => mono_pure _
          · exact mono_bind ih.assignment fun _ => mono_pure _
      · intro init
        apply mono_bind ?_ ?_
        · apply mono_bind (mono_pmatch tks "semicolon" (some ";")); intro o
          cases o with
          | some _ => exact mono_pure _
          | none =>
            apply mono_bind ih.expression; intro t
            exact mono_bind (mono_pexpect tks "semicolon" (some ";") _) fun _ => mono_pure _
        · intro test
          apply mono_bind ?_ ?_
          · apply mono_bind (mono_pmatch tks "paren" (some ")")); intro o
            cases o with
            | some _ => exact mono_pure _
            | none =>
              apply mono_bind (mono_curTokD tks); intro cur
              apply mono_bind ?_ ?_
              · split
                · apply mono_bind mono_getPos; intro pos
                  split
                  · split
                    · exact ih.updateCore false
                    · exact ih.expression
                  · exact ih.expression
                · exact ih.expression
              · intro u
                exact mono_bind (mono_pexpect tks "paren" (some ")") _) fun _ => mono_pure _
          · intro update
            exact mono_bind ih.statement fun _ => mono_pure _
    · -- parseExpression
      simp only [parserFns]
      exact ih.assignmentExpression
    · -- parseAssignmentExpression
      simp only [parserFns]
      apply mono_bind ih.orE; intro left
      apply mono_bind (mono_curTokD tks); intro cur
      split
      · apply mono_bind mono_advance; intro _
        apply mono_bind ih.assignmentExpression; intro right
        split
        · exact mono_pure _
        · exact mono_pure _
        · exact mono_pthrow _
      · exact mono_pure _
    · -- parseOr
      simp only [parserFns]
      apply mono_bind ih.andE; intro e
      exact mono_binLoop tks _ _ ih.andE n e
    · -- parseAnd
      simp only [parserFns]
      apply mono_bind ih.equality; intro e
      exact mono_binLoop tks _ _ ih.equality n e
    · -- parseEquality
      simp only [parserFns]
      apply mono_bind ih.relational; intro e
      exact mono_binLoop tks _ _ ih.relational n e
    · -- parseRelational
      simp only [parserFns]
      apply mono_bind ih.additive; intro e
      exact mono_binLoop tks _ _ ih.additive n e
    · -- parseAdditive
      simp only [parserFns]
      apply mono_bind ih.multiplicative; intro e
      exact mono_binLoop tks _ _ ih.multiplicative n e
    · -- parseMultiplicative
      simp only [parserFns]
      apply mono_bind ih.unary; intro e
      exact mono_binLoop tks _ _ ih.unary n e
    · -- parseUnary
      simp only [parserFns]
      apply mono_bind (mono_tryOps tks _); intro o
      cases o with
      | some op => exact mono_bind ih.unary fun _ => mono_pure _
      | none => exact ih.primary
    · -- parsePrimary
      simp only [parserFns]
      apply mono_bind (mono_curTokD tks); intro tok
      apply mono_bind (mono_pmatch tks "keyword" (some "new")); intro o
      cases o with
      | some _ => exact ih.arrayCreation
      | none =>
        apply mono_bind (mono_pmatch tks "number" none); intro o
        cases o with
        | some _ => exact mono_pure _
        | none =>
          apply mono_bind (mono_pmatch tks "string" none); intro o
          cases o with
          | some _ => exact mono_pure _
          | none =>
            apply mono_bind (mono_pmatch tks "keyword" (some "true")); intro o
            cases o with
            | some _ => exact mono_pure _
            | none =>
              apply mono_bind (mono_pmatch tks "keyword" (some "false")); intro o
              cases o with
              | some _ => exact mono_pure _
              | none =>
                apply mono_bind (mono_pmatch tks "identifier" none); intro o
                cases o with
                | some _ => exact ih.postfixChain _
                | none =>
                  apply mono_bind (mono_pmatch tks "paren" (some "(")); intro o
                  cases o with
                  | some _ =>
                    apply mono_bind ih.expression; intro e
                    exact mono_bind (mono_pexpect tks "paren" (some ")") _) fun _ => mono_pure _
                  | none => exact mono_pthrow _
    · -- parsePostfixChain
      intro node
      simp only [parserFns]
      apply mono_bind (mono_pmatch tks "paren" (some "(")); intro o
      cases o with
      | some _ =>
        apply mono_bind (ih.sepList _ _ _); intro args
        split
        · exact ih.postfixChain _
        · exact mono_bind (mono_curTokD tks) fun cur => mono_pthrow _
      | none =>
        apply mono_bind (mono_pmatch tks "dot" (some ".")); intro o
        cases o with
        | some _ =>
          apply mono_bind (mono_pexpect tks "identifier" none _); intro propTok
          apply mono_bind (mono_pmatch tks "paren" (some "(")); intro o
          cases o with
          | some _ =>
            apply mono_bind (ih.sepList _ _ _); intro args
            exact ih.postfixChain _
          | none =>
            dsimp only
            split
            · exact ih.postfixChain _
            · exact ih.postfixChain _
        | none =>
          apply mono_bind (mono_pmatch tks "bracket" (some "[")); intro o
          cases o with
          | some _ =>
            apply mono_bind ih.expression; intro idx
            apply mono_bind (mono_pexpect tks "bracket" (some "]") _); intro _
            apply mono_bind (ih.indices _); intro indices
            exact ih.postfixChain _
          | none =>
            apply mono_bind (mono_tryOps tks _); intro o
            cases o with
            | some op => exact mono_pure _
            | none => exact mono_pure _
    · -- parseSepList
      intro a b c
      simp only [parserFns]
      apply mono_bind (mono_pmatch tks a (some b)); intro o
      cases o with
      | some _ => exact mono_pure _
      | none =>
        apply mono_bind ih.expression; intro first
        exact ih.sepLoop _ _ _ _
    · -- sepListLoop
      intro a b c e
      simp only [parserFns]
      apply mono_bind ?_ ?_
      · apply mono_bind ?_ ?_
        · apply mono_bind (mono_pmatch tks "comma" (some ",")); intro o
          cases o with
          | some _ =>
            apply mono_bind ih.expression; intro e2
            exact ih.sepLoop _ _ _ _
          | none =>
            exact mono_bind (mono_pexpect tks a (some b) _) fun _ => mono_pure _
        · intro r; exact mono_pure _
      · intro rest; exact mono_pure _
    · -- parseCallStatement
      simp only [parserFns]
      apply mono_bind (mono_pexpect tks "identifier" none _); intro base
      apply mono_bind (ih.postfixChain _); intro node
      exact mono_bind (mono_pexpect tks "semicolon" (some ";") _) fun _ => mono_pure _
    · -- parseArrayCreation
      simp only [parserFns]
      apply mono_bind (mono_pexpect tks "keyword" none _); intro typeTok
      apply mono_bind (ih.dims _); intro dims
      split
      · exact mono_pthrow _
      · apply mono_bind ?_ ?_
        · split
          · apply mono_bind (mono_pmatch tks "brace" (some "\x7b")); intro o
            cases o with
            | some _ => exact mono_pure _
            | none => exact mono_pure _
          · exact mono_pure _
        · intro hasInit
          split
          · exact mono_bind (ih.sepList _ _ _) fun _ => mono_pure _
          · split
            · exact mono_pthrow _
            · exact mono_pure _
    · -- parseDims
      intro acc
      simp only [parserFns]
      apply mono_bind (mono_pmatch tks "bracket" (some "[")); intro o
      cases o with
      | none => exact mono_pure _
      | some _ =>
        apply mono_bind (mono_pmatch tks "bracket" (some "]")); intro o
        cases o with
        | some _ => exact ih.dims _
        | none =>
          apply mono_bind ih.expression; intro e
          apply mono_bind (mono_pexpect tks "bracket" (some "]") _); intro _
          exact ih.dims _

theorem normChars_eq_render : ∀ (N : Nat) (m : NMode) (l : List Char), l.length ≤ N →
    normChars m l = (commentTags m l).map renderTag := by
  intro N
  induction N with
  | zero =>
    intro m l h
    have : l = [] := List.length_eq_zero.mp (Nat.le_zero.mp h)
    subst this
    cases m <;> rfl
  | succ N ih =>
    intro m l h
    cases l with
    | nil => cases m <;> rfl
    | cons c cs =>
      have hcs : cs.length ≤ N := by
        simpa using Nat.succ_le_succ_iff.mp h
      cases m with
      | str q =>
        rw [normChars.eq_def, commentTags.eq_def]
        dsimp only
        by_cases h1 : (c == '\\') = true
        · simp only [h1, if_true]
          cases cs with
          | nil => simp [renderTag]
          | cons d ds =>
            have : ds.length ≤ N := by
              simp at hcs
              omega
            simp [renderTag, ih (NMode.str q) ds this]
        · simp only [h1, if_false]
          by_cases h2 : (c == q) = true
          · simp [h2, renderTag, ih NMode.code cs hcs]
          · simp [h2, renderTag, ih (NMode.str q) cs hcs]
      | lineC =>
        rw [normChars.eq_def, commentTags.eq_def]
        dsimp only
        by_cases h1 : (c == '\n') = true
        · simp at h1
          simp [h1, renderTag, ih NMode.code cs hcs]
        · simp at h1
          simp [renderTag, h1, ih NMode.lineC cs hcs]
      | blockC =>
        rw [normChars.eq_def, commentTags.eq_def]
        dsimp only
        cases cs with
        | nil =>
          simp only [renderTag, List.map]
          by_cases hn : c = '\n' <;> simp [hn]
        | cons d ds =>
          have hds : ds.length ≤ N := by
            simp at hcs
            omega
          by_cases h1 : (c == '*' && d == '/') = true
          · simp only [h1]
            simp at h1
            simp [renderTag, h1, ih NMode.code ds hds]
          · simp only [h1]
            simp [renderTag, ih NMode.blockC (d :: ds) hcs]
            by_cases hn : c = '\n' <;> simp [hn, renderTag]
      | code =>
        rw [normChars.eq_def, commentTags.eq_def]
        dsimp only
        by_cases h1 : (c == '"' || c == '\'') = true
        · simp only [h1, if_true]
          simp [renderTag, ih (NMode.str c) cs hcs]
        · simp only [h1, if_false]
          by_cases h2 : (c == '/') = true
          · simp only [h2, if_true]
            cases cs with
            | nil => simp [renderTag]
            | cons d ds =>
              have hds : ds.length ≤ N := by
                simp at hcs
                omega
              have hc : c = '/' := by simpa using h2
              by_cases h3 : (d == '/') = true
              · simp at h3
                simp [hc, h3, renderTag, ih NMode.lineC ds hds]
              · by_cases h4 : (d == '*') = true
                · simp at h3 h4
                  simp [hc, h3, h4, renderTag, ih NMode.blockC ds hds]
                · simp [h3, h4, renderTag, ih NMode.code (d :: ds) hcs]
          · simp only [h2, if_false]
            simp [renderTag, ih NMode.code cs hcs]

theorem commentTags_fst : ∀ (N : Nat) (m : NMode) (l : List Char), l.length ≤ N →
    (commentTags m l).map Prod.fst = l := by
  intro N
  induction N with
  | zero =>
    intro m l h
    have : l = [] := List.length_eq_zero.mp (Nat.le_zero.mp h)
    subst this
    cases m <;> rfl
  | succ N ih =>
    intro m l h
    cases l with
    | nil => cases m <;> rfl
    | cons c cs =>
      have hcs : cs.length ≤ N := by
        simpa using Nat.succ_le_succ_iff.mp h
      cases m with
      | str q =>
        rw [commentTags.eq_def]
        dsimp only
        by_cases h1 : (c == '\\') = true
        · simp only [h1, if_true]
          cases cs with
          | nil => simp
          | cons d ds =>
            have : ds.length ≤ N := by
              simp at hcs
              omega
            simp [ih (NMode.str q) ds this]
        · simp only [h1, if_false]
          by_cases h2 : (c == q) = true
          · simp [h2, ih NMode.code cs hcs]
          · simp [h2, ih (NMode.str q) cs hcs]
      | lineC =>
        rw [commentTags.eq_def]
        dsimp only
        by_cases h1 : (c == '\n') = true
        · simp at h1
          simp [h1, ih NMode.code cs hcs]
        · simp at h1
          simp [h1, ih NMode.lineC cs hcs]
      | blockC =>
        rw [commentTags.eq_def]
        dsimp only
        cases cs with
        | nil => simp
        | cons d ds =>
          have hds : ds.length ≤ N := by
            simp at hcs
            omega
          by_cases h1 : (c == '*' && d == '/') = true
          · simp only [h1]
            simp at h1
            simp [h1, ih NMode.code ds hds]
          · simp only [h1]
            simp [ih NMode.blockC (d :: ds) hcs]
      | code =>
        rw [commentTags.eq_def]
        dsimp only
        by_cases h1 : (c == '"' || c == '\'') = true
        · simp only [h1, if_true]
          simp [ih (NMode.str c) cs hcs]
        · simp only [h1, if_false]
          by_cases h2 : (c == '/') = true
          · simp only [h2, if_true]
            cases cs with
            | nil => simp
            | cons d ds =>
              have hds : ds.length ≤ N := by
                simp at hcs
                omega
              have hc : c = '/' := by simpa using h2
              by_cases h3 : (d == '/') = true
              · simp at h3
                simp [hc, h3, ih NMode.lineC ds hds]
              · by_cases h4 : (d == '*') = true
                · simp at h3 h4
                  simp [hc, h3, h4, ih NMode.blockC ds hds]
                · simp [h3, h4, ih NMode.code (d :: ds) hcs]
          · simp only [h2, if_false]
            simp [ih NMode.code cs hcs]

theorem unifyEol_id : ∀ l : List Char, '\r' ∉ l → unifyEol l = l := by
  intro l
  induction l with
  | nil => intro _; rfl
  | cons c cs ih =>
    intro h
    rw [unifyEol.eq_def]
    split <;> simp_all

theorem expandTabs_id : ∀ l : List Char, '\t' ∉ l → expandTabs l = l := by
  intro l
  induction l with
  | nil => intro _; rfl
  | cons c cs ih =>
    intro h
    rw [expandTabs.eq_def]
    split <;> simp_all

theorem normalize_data (s : String) (h1 : '\r' ∉ s.data) (h2 : '\t' ∉ s.data) :
    (normalize s).data = normChars NMode.code s.data := by
  unfold normalize
  rw [unifyEol_id _ h1, expandTabs_id _ h2]

theorem normChars_render (m : NMode) (l : List Char) :
    normChars m l = (commentTags m l).map renderTag :=
  normChars_eq_render l.length m l (Nat.le_refl _)

theorem commentTags_fst_self (m : NMode) (l : List Char) :
    (commentTags m l).map Prod.fst = l :=
  commentTags_fst l.length m l (Nat.le_refl _)

/-- C4.  The normalizer is a total function (normalize is a Lean
function).  On input with unified line endings and no tabs, the output
has the same length and line structure as the input; every character the
region classifier places outside a comment, including every
string-literal character with its escape pairs, is unchanged at its
position, and every character inside a line or block comment is replaced
by a space, newlines preserved. -/
theorem claim4_normalize_position_fidelity (s : String)
    (h1 : '\r' ∉ s.data) (h2 : '\t' ∉ s.data) :
    (normalize s).data.length = s.data.length ∧
    (∀ (i : Nat) (c : Char), (commentTags NMode.code s.data)[i]? = some (c, false) →
      (normalize s).data[i]? = some c ∧ s.data[i]? = some c) ∧
    (∀ (i : Nat) (c : Char), (commentTags NMode.code s.data)[i]? = some (c, true) →
      s.data[i]? = some c ∧
      (normalize s).data[i]? = some (if c = '\n' then '\n' else ' ')) ∧
    (∀ (i : Nat), (normalize s).data[i]? = some '\n' ↔ s.data[i]? = some '\n') := by
  set tags := commentTags NMode.code s.data with htags
  have hout : (normalize s).data = tags.map renderTag := by
    rw [normalize_data s h1 h2, normChars_render, htags]
  have hsrc : tags.map Prod.fst = s.data := by
    rw [htags]
    exact commentTags_fst_self NMode.code s.data
  have houti : ∀ (i : Nat), (normalize s).data[i]? = (tags[i]?).map renderTag := by
    intro i
    rw [hout, List.getElem?_map]
  have hsrci : ∀ (i : Nat), s.data[i]? = (tags[i]?).map Prod.fst := by
    intro i
    rw [← hsrc, List.getElem?_map]
  refine ⟨?_, ?_, ?_, ?_⟩
  · rw [hout, List.length_map, ← hsrc, List.length_map]
  · intro i c htag
    rw [houti, hsrci, htag]
    exact ⟨rfl, rfl⟩
  · intro i c htag
    rw [houti, hsrci, htag]
    constructor
    · rfl
    · simp only [Option.map_some']
      by_cases hn : c = '\n' <;> simp [renderTag, hn]
  · intro i
    rw [houti, hsrci]
    cases htag : tags[i]? with
    | none => simp
    | some p =>
      obtain ⟨c, b⟩ := p
      simp only [Option.map_some', Option.some.injEq]
      cases b with
      | false => simp [renderTag]
      | true =>
        by_cases hn : c = '\n'
        · simp [renderTag, hn]
        · simp only [renderTag]
          simp [hn]

theorem claim4_witness :
    ('\r' ∉ "a//b".data) ∧ ('\t' ∉ "a//b".data) ∧
    (normalize "a//b").data.length = "a//b".data.length ∧
    (normalize "a//b").data[1]? = some ' ' ∧ "a//b".data[1]? = some '/' := by
  have h1 : '\r' ∉ "a//b".data := by decide
  have h2 : '\t' ∉ "a//b".data := by decide
  obtain ⟨hlen, hcode, hcomment, hnl⟩ := claim4_normalize_position_fidelity "a//b" h1 h2
  have hc := hcomment 1 '/' (by decide)
  refine ⟨h1, h2, hlen, ?_, hc.1⟩
  rw [hc.2]
  decide

/- ### Orchestration claims -/

/-- C1 (code_bug evidence).  On an input whose parsing fails — here a
declaration missing its semicolon — parse returns a structured
parse-stage error, but the styled convert ignores the parser's error
field, invokes the generator on an undefined AST, and the call ends in
an unhandled TypeError instead of returning the error list. -/
theorem claim1_parse_error_escapes_as_fault :
    tokenize "int x" =
      Except.ok [⟨"keyword", "int", 1, 1⟩, ⟨"identifier", "x", 1, 5⟩, ⟨"eof", "", 1, 6⟩] ∧
    parse [⟨"keyword", "int", 1, 1⟩, ⟨"identifier", "x", 1, 5⟩, ⟨"eof", "", 1, 6⟩] =
      Except.error (err "parse" "Expected ';' after declaration" 1 6) ∧
    convert "int x" (some "sc-05") = ConvertOutcome.fault undefinedAstFault :=
  ⟨rfl, rfl, rfl⟩

/-- C2.  Empty or whitespace-only input short-circuits with exactly one
input-stage error before any stage function is consulted: the result is
the same for every choice of normalizer, scope guard, tokenizer, parser
and generator, so no scope, tokenization or parse error can be
produced. -/
theorem claim2_blank_input_short_circuits
    (normF : String → String) (scopeF : String → Option ConvertError)
    (tokF : String → Except ConvertError (List Token))
    (parF : List Token → Except ConvertError AstNode)
    (genF : AstNode → Option String → String)
    (s : String) (styleId : Option String) (h : jsBlank s = true) :
    convertWith normF scopeF tokF parF genF s styleId =
      ConvertOutcome.errors [err "input" "Empty input" 1 1] := by
  unfold convertWith
  rw [h]
  rfl

theorem claim2_witness :
    jsBlank "  \n\t " = true ∧
    convert "  \n\t " (some "sc-05") =
      ConvertOutcome.errors [err "input" "Empty input" 1 1] :=
  ⟨by decide,
   claim2_blank_input_short_circuits normalize scopeGuard tokenize parse
     generatePseudocode "  \n\t " (some "sc-05") (by decide)⟩

/- ### Generator claims -/

/-- C6.  Bounded for-loop headers: a strict comparison against a literal
is adjusted by the step into an inclusive bound (0 up to 4 for a test
below 5; down to 1 for a test above 0 with a decrement), while
non-strict comparisons are used unchanged; direction is downto for a
decrementing update or a greater-than test. -/
theorem claim6_for_loop_bounds :
    convert "for (int i = 0; i < 5; i++) \x7b sum = sum + i; \x7d" (some "sc-05") =
      ConvertOutcome.pseudocode "loop i from 0 to 4\n    sum = sum + i\nend loop" ∧
    convert "for (int i = 5; i > 0; i--) \x7b sum = sum + i; \x7d" (some "sc-05") =
      ConvertOutcome.pseudocode "loop i from 5 downto 1\n    sum = sum + i\nend loop" ∧
    convert "for (int i = 0; i <= 7; i++) \x7b sum = sum + i; \x7d" (some "sc-05") =
      ConvertOutcome.pseudocode "loop i from 0 to 7\n    sum = sum + i\nend loop" ∧
    convert "for (int i = 9; i >= 2; i--) \x7b sum = sum + i; \x7d" (some "sc-05") =
      ConvertOutcome.pseudocode "loop i from 9 downto 2\n    sum = sum + i\nend loop" :=
  ⟨rfl, rfl, rfl, rfl⟩

/-- C7.  Do-while rendering: the concrete loop is rendered as
loop-until with the inverted test, and the inversion swaps relational
operators through the fixed table or strips/adds a logical negation
when no direct inverse applies. -/
theorem claim7_do_while_inversion :
    convert "do \x7b x = x + 1; \x7d while (x < 10);" (some "sc-05") =
      ConvertOutcome.pseudocode "loop\n    x = x + 1\nuntil x >= 10" ∧
    (∀ a b, invertCondition (AstNode.Binary "<" a b) = AstNode.Binary ">=" a b) ∧
    (∀ a b, invertCondition (AstNode.Binary "<=" a b) = AstNode.Binary ">" a b) ∧
    (∀ a b, invertCondition (AstNode.Binary ">" a b) = AstNode.Binary "<=" a b) ∧
    (∀ a b, invertCondition (AstNode.Binary ">=" a b) = AstNode.Binary "<" a b) ∧
    (∀ a b, invertCondition (AstNode.Binary "==" a b) = AstNode.Binary "!=" a b) ∧
    (∀ a b, invertCondition (AstNode.Binary "!=" a b) = AstNode.Binary "==" a b) ∧
    (∀ e, invertCondition (AstNode.Unary "!" e) = e) ∧
    (∀ a b, invertCondition (AstNode.Binary "&&" a b) =
      AstNode.Unary "!" (AstNode.Binary "&&" a b)) ∧
    (∀ name, invertCondition (AstNode.Identifier name) =
      AstNode.Unary "!" (AstNode.Identifier name)) :=
  ⟨rfl, fun _ _ => rfl, fun _ _ => rfl, fun _ _ => rfl, fun _ _ => rfl,
   fun _ _ => rfl, fun _ _ => rfl, fun _ => rfl, fun _ _ => rfl, fun _ => rfl⟩

/-- C8.  Output splitting: the concrete console call renders as an
output statement with the literal text and the variable as two
comma-separated arguments, and in general a concatenation chain with a
string-literal part yields one output argument per chain part. -/
theorem claim8_output_splitting :
    convert "System.out.println(\"Hello \" + name);" none =
      ConvertOutcome.pseudocode "output \"Hello \", name" ∧
    (∀ (st : StyleConfig) (n : Nat) (expr : AstNode),
      1 < (flattenConcat expr).length →
      containsStringLiteral (flattenConcat expr) = true →
      (formatOutputArgsFromExpression st n expr).length =
        (flattenConcat expr).length) := by
  constructor
  · rfl
  · intro st n expr h1 h2
    unfold formatOutputArgsFromExpression
    simp [h1, h2]

theorem claim8_witness :
    (formatOutputArgsFromExpression (resolveStyle none) 5
        (AstNode.Binary "+" (AstNode.Literal "\"a\"") (AstNode.Identifier "b"))).length =
      (flattenConcat
        (AstNode.Binary "+" (AstNode.Literal "\"a\"") (AstNode.Identifier "b"))).length :=
  claim8_output_splitting.2 (resolveStyle none) 5
    (AstNode.Binary "+" (AstNode.Literal "\"a\"") (AstNode.Identifier "b"))
    (by decide) (by decide)

/- ### Compound modulo assignment (C10) -/

/-- C10 (counterexample to the claim as stated).  The claim says convert
returns a parse error for a modulo compound assignment; because the
styled convert ignores the parser's error field, the call instead ends
in the unhandled TypeError of the generator on an undefined AST. -/
theorem claim10_counterexample :
    convert "x %= 1;" none = ConvertOutcome.fault undefinedAstFault := rfl

/-- C10 (amended).  The parser's assignment-operator set contains the
modulo compound operator, but the tokenizer's greedy two-character set
omits it and emits separate percent and equals operator tokens, so
parsing a modulo compound assignment fails with a parse-stage error
(which the styled convert then surfaces as the unhandled fault of the
orchestration slip). -/
theorem claim10_mod_assign_unreachable :
    ("%=" ∈ assignmentOps) ∧ ("%=" ∉ twoOps) ∧
    tokenize "x %= 1;" =
      Except.ok [⟨"identifier", "x", 1, 1⟩, ⟨"operator", "%", 1, 3⟩,
        ⟨"operator", "=", 1, 4⟩, ⟨"number", "1", 1, 6⟩,
        ⟨"semicolon", ";", 1, 7⟩, ⟨"eof", "", 1, 8⟩] ∧
    parse [⟨"identifier", "x", 1, 1⟩, ⟨"operator", "%", 1, 3⟩,
        ⟨"operator", "=", 1, 4⟩, ⟨"number", "1", 1, 6⟩,
        ⟨"semicolon", ";", 1, 7⟩, ⟨"eof", "", 1, 8⟩] =
      Except.error (err "parse" "Unexpected token '='" 1 4) :=
  ⟨by decide, by decide, rfl, rfl⟩

/- ### Unterminated string literals (C5) -/

/-- C5 (counterexample to the claim as stated).  The opening quote of
the unterminated literal sits at column 5 (index 4), yet the
tokenization error is reported at column 8, the position of the line
break — not at the opening quote. -/
theorem claim5_counterexample :
    tokenize "x = \"ab\nc\"" =
      Except.error (err "tokenization" "Unterminated string literal" 1 8) ∧
    "x = \"ab\nc\"".data[4]? = some '"' ∧ (8 : Nat) ≠ 5 :=
  ⟨rfl, rfl, by decide⟩

/-- Every error of the string scanner is the unterminated-string
tokenization error, reported on the line of the opening quote and at a
column no earlier than the scan start — the current scan position of the
offending line break or end of input. -/
theorem scanString_error (q : Char) (line : Nat) :
    ∀ (N : Nat) (l : List Char) (col : Nat) (e : ConvertError),
      l.length ≤ N → scanString q line col l = Except.error e →
      e.stage = "tokenization" ∧ e.message = "Unterminated string literal" ∧
        e.line = line ∧ col ≤ e.column := by
  intro N
  induction N with
  | zero =>
    intro l col e hN h
    have : l = [] := List.length_eq_zero.mp (Nat.le_zero.mp hN)
    subst this
    cases h
    exact ⟨rfl, rfl, rfl, Nat.le_refl _⟩
  | succ N ih =>
    intro l col e hN h
    cases l with
    | nil =>
      cases h
      exact ⟨rfl, rfl, rfl, Nat.le_refl _⟩
    | cons c cs =>
      have hcs : cs.length ≤ N := by
        simpa using Nat.succ_le_succ_iff.mp hN
      rw [scanString.eq_def] at h
      dsimp only at h
      by_cases h1 : (c == '\\') = true
      · rw [if_pos h1] at h
        cases cs with
        | nil =>
          cases h
          exact ⟨rfl, rfl, rfl, Nat.le_add_right _ _⟩
        | cons d ds =>
          have hds : ds.length ≤ N := by
            simp at hcs
            omega
          dsimp only at h
          cases hrec : scanString q line (col + 2) ds with
          | ok v => rw [hrec] at h; cases h
          | error e2 =>
            rw [hrec] at h
            cases h
            have := ih ds (col + 2) _ hds hrec
            exact ⟨this.1, this.2.1, this.2.2.1,
              Nat.le_trans (Nat.le_add_right _ _) this.2.2.2⟩
      · rw [if_neg h1] at h
        by_cases h2 : (c == q) = true
        · rw [if_pos h2] at h
          cases h
        · rw [if_neg h2] at h
          by_cases h3 : (c == '\n') = true
          · rw [if_pos h3] at h
            cases h
            exact ⟨rfl, rfl, rfl, Nat.le_refl _⟩
          · rw [if_neg h3] at h
            cases hrec : scanString q line (col + 1) cs with
            | ok v => rw [hrec] at h; cases h
            | error e2 =>
              rw [hrec] at h
              cases h
              have := ih cs (col + 1) _ hcs hrec
              exact ⟨this.1, this.2.1, this.2.2.1,
                Nat.le_trans (Nat.le_succ _) this.2.2.2⟩

/-- C5 (amended).  A string literal that is unterminated or crosses a
line boundary makes the scanner fail with a tokenization-stage
unterminated-string error on the line of the opening quote, positioned
at the current scan position — the offending line break or one past the
consumed input — not at the opening quote's column; on the concrete
input the opening quote is at column 5 and the error at column 8. -/
theorem claim5_unterminated_string_position
    (q : Char) (line col : Nat) (l : List Char) (e : ConvertError)
    (h : scanString q line col l = Except.error e) :
    e.stage = "tokenization" ∧ e.message = "Unterminated string literal" ∧
      e.line = line ∧ col ≤ e.column :=
  scanString_error q line l.length l col e (Nat.le_refl _) h

theorem claim5_witness :
    scanString '"' 1 6 "ab\nc".data =
      Except.error (err "tokenization" "Unterminated string literal" 1 8) ∧
    (err "tokenization" "Unterminated string literal" 1 8).stage = "tokenization" ∧
    6 ≤ (err "tokenization" "Unterminated string literal" 1 8).column := by
  have h : scanString '"' 1 6 "ab\nc".data =
      Except.error (err "tokenization" "Unterminated string literal" 1 8) := rfl
  have := claim5_unterminated_string_position '"' 1 6 "ab\nc".data _ h
  exact ⟨h, this.1, this.2.2.2⟩

/- ### Scope guard claims (C3) -/

/-- Every error the scope guard produces carries the scope stage. -/
theorem scopeGuard_stage (s : String) (e : ConvertError)
    (h : scopeGuard s = some e) : e.stage = "scope" := by
  unfold scopeGuard at h
  cases hf : scopeRules.find? fun r => r.test s.data with
  | none => rw [hf] at h; cases h
  | some r => rw [hf] at h; cases h; rfl

/-- find? returns the element at the first index whose test holds. -/
theorem find?_at_first_index {α : Type} (p : α → Bool) :
    ∀ (l : List α) (i : Nat) (x : α),
      l[i]? = some x → p x = true →
      (∀ (j : Nat) (y : α), j < i → l[j]? = some y → p y = false) →
      l.find? p = some x := by
  intro l
  induction l with
  | nil => intro i x hx; simp at hx
  | cons a as ih =>
    intro i x hx hpx hprev
    cases i with
    | zero =>
      simp at hx
      subst hx
      simp [List.find?_cons, hpx]
    | succ i =>
      have ha : p a = false := hprev 0 a (Nat.succ_pos i) (by simp)
      rw [List.find?_cons, ha]
      exact ih i x (by simpa using hx) hpx
        (fun j y hj hy => hprev (j + 1) y (Nat.succ_lt_succ hj) (by simpa using hy))

/-- A rule of the denylist that matches guarantees a scope-stage
error. -/
theorem scopeGuard_some_of_rule (s : String) (r : ScopeRule)
    (hmem : r ∈ scopeRules) (h : r.test s.data = true) :
    ∃ e, scopeGuard s = some e ∧ e.stage = "scope" := by
  unfold scopeGuard
  have hs : (scopeRules.find? fun r => r.test s.data).isSome := by
    rw [List.find?_isSome]
    exact ⟨r, hmem, h⟩
  obtain ⟨r2, hr2⟩ := Option.isSome_iff_exists.mp hs
  rw [hr2]
  exact ⟨_, rfl, rfl⟩

/-- C3 (counterexample to the claim as stated).  A source containing a
second top-level type declaration on a different line — two word-bounded
occurrences of the class keyword — passes the scope guard untouched and
converts successfully to empty pseudocode, with no scope-stage error. -/
theorem claim3_counterexample :
    containsWord "class" (normalize "class A \x7b \x7d\nclass B \x7b \x7d").data = true ∧
    containsWord "class" ((normalize "class A \x7b \x7d\nclass B \x7b \x7d").data.drop 12) = true ∧
    scopeGuard (normalize "class A \x7b \x7d\nclass B \x7b \x7d") = none ∧
    convert "class A \x7b \x7d\nclass B \x7b \x7d" (some "sc-05") = ConvertOutcome.pseudocode "" :=
  ⟨by decide, by decide, rfl, rfl⟩

/-- C3 (amended).  For every non-blank source on whose normalization the
scope guard matches, convert returns exactly that scope-stage error and
neither the tokenizer, the parser nor the generator influences the
result; the guard names the first rule in the fixed order that matches;
and each embedded denylist pattern — word-bounded interface, implements,
extends, throws, try, catch, switch, the word generic followed by a
less-than sign, and a second word-bounded class keyword on the same
line — independently triggers a scope-stage error. -/
theorem claim3_scope_rejection :
    (∀ (tokF : String → Except ConvertError (List Token))
       (parF : List Token → Except ConvertError AstNode)
       (genF : AstNode → Option String → String)
       (s : String) (styleId : Option String) (e : ConvertError),
      jsBlank s = false → scopeGuard (normalize s) = some e →
      convertWith normalize scopeGuard tokF parF genF s styleId =
        ConvertOutcome.errors [e] ∧ e.stage = "scope") ∧
    (∀ (s : String) (i : Nat) (r : ScopeRule),
      scopeRules[i]? = some r → r.test s.data = true →
      (∀ (j : Nat) (r2 : ScopeRule), j < i → scopeRules[j]? = some r2 →
        r2.test s.data = false) →
      scopeGuard s = some (err "scope" r.why 1 1)) ∧
    (∀ s : String,
      (containsWord "interface" s.data = true →
        ∃ e, scopeGuard s = some e ∧ e.stage = "scope") ∧
      (containsWord "implements" s.data = true →
        ∃ e, scopeGuard s = some e ∧ e.stage = "scope") ∧
      (containsWord "extends" s.data = true →
        ∃ e, scopeGuard s = some e ∧ e.stage = "scope") ∧
      (containsWord "throws" s.data = true →
        ∃ e, scopeGuard s = some e ∧ e.stage = "scope") ∧
      (containsWord "try" s.data = true →
        ∃ e, scopeGuard s = some e ∧ e.stage = "scope") ∧
      (containsWord "catch" s.data = true →
        ∃ e, scopeGuard s = some e ∧ e.stage = "scope") ∧
      (containsWord "switch" s.data = true →
        ∃ e, scopeGuard s = some e ∧ e.stage = "scope") ∧
      (genericScan false s.data = true →
        ∃ e, scopeGuard s = some e ∧ e.stage = "scope") ∧
      (twoClassScan false s.data = true →
        ∃ e, scopeGuard s = some e ∧ e.stage = "scope")) := by
  refine ⟨?_, ?_, ?_⟩
  · intro tokF parF genF s styleId e hblank hscope
    refine ⟨?_, scopeGuard_stage _ _ hscope⟩
    unfold convertWith
    rw [hblank]
    simp only [Bool.false_eq_true, if_false]
    rw [hscope]
  · intro s i r hi hr hprev
    unfold scopeGuard
    rw [find?_at_first_index (fun r => r.test s.data) scopeRules i r hi hr hprev]
    rfl
  · intro s
    refine ⟨?_, ?_, ?_, ?_, ?_, ?_, ?_, ?_, ?_⟩ <;> intro h
    · exact scopeGuard_some_of_rule s
        ⟨"Interfaces are out of scope.", containsWord "interface"⟩
        (by unfold scopeRules; simp) h
    · exact scopeGuard_some_of_rule s
        ⟨"Interfaces are out of scope.", containsWord "implements"⟩
        (by unfold scopeRules; simp) h
    · exact scopeGuard_some_of_rule s
        ⟨"Inheritance is out of scope.", containsWord "extends"⟩
        (by unfold scopeRules; simp) h
    · exact scopeGuard_some_of_rule s
        ⟨"Exceptions are out of scope.", containsWord "throws"⟩
        (by unfold scopeRules; simp) h
    · exact scopeGuard_some_of_rule s
        ⟨"Exceptions are out of scope.", containsWord "try"⟩
        (by unfold scopeRules; simp) h
    · exact scopeGuard_some_of_rule s
        ⟨"Exceptions are out of scope.", containsWord "catch"⟩
        (by unfold scopeRules; simp) h
    · exact scopeGuard_some_of_rule s
        ⟨"Switch is out of scope.", containsWord "switch"⟩
        (by unfold scopeRules; simp) h
    · exact scopeGuard_some_of_rule s
        ⟨"Generics are out of scope.", genericScan false⟩
        (by unfold scopeRules; simp) h
    · exact scopeGuard_some_of_rule s
        ⟨"Multiple classes are out of scope.", twoClassScan false⟩
        (by unfold scopeRules; simp) h

theorem claim3_witness :
    jsBlank "try \x7b \x7d" = false ∧
    scopeGuard (normalize "try \x7b \x7d") =
      some (err "scope" "Exceptions are out of scope." 1 1) ∧
    convert "try \x7b \x7d" (some "sc-05") =
      ConvertOutcome.errors [err "scope" "Exceptions are out of scope." 1 1] := by
  have hb : jsBlank "try \x7b \x7d" = false := by decide
  have hs : scopeGuard (normalize "try \x7b \x7d") =
      some (err "scope" "Exceptions are out of scope." 1 1) := rfl
  exact ⟨hb, hs,
    (claim3_scope_rejection.1 tokenize parse generatePseudocode "try \x7b \x7d"
      (some "sc-05") _ hb hs).1⟩

/- ### Parser cursor monotonicity (C9) -/

/-- C9.  The parser's cursor position is monotonically non-decreasing
across every parser operation: the match and expect primitives and every
parse method of every fuel level return, on success, a position at least
the position they started from, so no operation ever rewinds past a
consumed token.  The lookahead predicates isAssignmentAhead,
isCallStatementAhead and isUpdateStatementAhead are embedded as pure
functions of the token list and the position, so they cannot change the
position at all, and parseStatement dispatches on them at the unchanged
current position. -/
theorem claim9_parser_position_monotone :
    (∀ (tks : List Token) (ty : String) (v : Option String),
      Mono (pmatch tks ty v)) ∧
    (∀ (tks : List Token) (ty : String) (v msg : Option String),
      Mono (pexpect tks ty v msg)) ∧
    (∀ (tks : List Token) (n : Nat), ParserMono (parserFns tks n)) :=
  ⟨mono_pmatch, mono_pexpect, parserFnsMono⟩

theorem claim9_witness :
    pmatch [⟨"semicolon", ";", 1, 1⟩] "semicolon" (some ";") 0 =
      Except.ok (some ⟨"semicolon", ";", 1, 1⟩, 1) ∧ 0 ≤ 1 := by
  have h : pmatch [⟨"semicolon", ";", 1, 1⟩] "semicolon" (some ";") 0 =
      Except.ok (some ⟨"semicolon", ";", 1, 1⟩, 1) := rfl
  exact ⟨h, claim9_parser_position_monotone.1 [⟨"semicolon", ";", 1, 1⟩]
    "semicolon" (some ";") 0 _ 1 h⟩

end IA
